import Mathlib

/-!
A shallow embedding of the continuous-aggregate creation logic of
`tsl/src/continuous_aggs/create.c` (TimescaleDB), together with theorems
that check the natural-language specification of that file against the code.

Conventions of the embedding:
* PostgreSQL `List *` becomes `List`, `NULL` pointers become `Option`,
  `ereport(ERROR, ...)` becomes `Except CaggErr`, and in-place mutation of a
  struct becomes explicit state passing.
* Catalog lookups that resolve names to OIDs (`LookupFuncName`,
  `lookup_type_cache`, `get_negator`, `ts_get_cast_func`) are kept symbolic:
  a `FuncId`/`OpNo` value records which lookup produced it.
* Catalog predicates that depend on installed state
  (`func_volatile`, `ts_func_cache_get_bucketing_func`,
  `ts_is_valid_timezone_name`, `SearchSysCache1(AGGFNOID, ...)`) are taken
  as explicit function parameters.
* C `int64` arithmetic uses `Int` with C truncating division/modulo
  (`Int.tdiv` / `Int.tmod`); the widths handled here never overflow 64 bits.
-/

set_option autoImplicit false

namespace Cagg

/-! ## Basic identifiers, PostgreSQL type OIDs and constants -/

/-- Object identifier (PostgreSQL `Oid`). -/
abbrev Oid := Nat

def InvalidOid : Oid := 0
def BOOLOID : Oid := 16
def BYTEAOID : Oid := 17
def INT8OID : Oid := 20
def INT2OID : Oid := 21
def INT4OID : Oid := 23
def TEXTOID : Oid := 25
def INTERNALOID : Oid := 2281
def DATEOID : Oid := 1082
def TIMESTAMPOID : Oid := 1114
def TIMESTAMPTZOID : Oid := 1184
def INTERVALOID : Oid := 1186

def NAMEDATALEN : Nat := 64

/-- `#define DAYS_PER_MONTH 30` (PostgreSQL `timestamp.h`). -/
def DAYS_PER_MONTH : Int := 30

/-- Sentinel stored in `bucket_width` for variable-sized buckets
(`BUCKET_WIDTH_VARIABLE`, `ts_catalog/continuous_agg.h`). -/
def BUCKET_WIDTH_VARIABLE : Int := -1

/-- `#define CONTINUOUS_AGG_MAX_JOIN_RELATIONS 2` -/
def CONTINUOUS_AGG_MAX_JOIN_RELATIONS : Nat := 2

/-- Name of the internal chunk-id column
(`CONTINUOUS_AGG_CHUNK_ID_COL_NAME`, `ts_catalog/continuous_agg.h`). -/
def CONTINUOUS_AGG_CHUNK_ID_COL_NAME : String := "chunk_id"

def DEFAULT_MATPARTCOLUMN_NAME : String := "time_partition_col"
def FINALFN : String := "finalize_agg"
def PARTIALFN : String := "partialize_agg"
def CHUNKIDFROMRELID : String := "chunk_id_from_relid"
def BOUNDARY_FUNCTION : String := "cagg_watermark"
def INTERNAL_TO_DATE_FUNCTION : String := "to_date"
def INTERNAL_TO_TSTZ_FUNCTION : String := "to_timestamp"
def INTERNAL_TO_TS_FUNCTION : String := "to_timestamp_without_timezone"

/-- `TableOidAttributeNumber` (PostgreSQL `sysattr.h`). -/
def TableOidAttributeNumber : Int := -6

/-! ## Errors

Every `ereport(ERROR, ...)`/`elog(ERROR, ...)` site of the embedded code gets
one constructor; `Assert` failures and NULL-pointer dereferences that the C
code would hit on malformed input are modeled as `assertFailed`. -/

inductive CaggErr where
  | multipleTimeBucket
  | bucketNotPartitionColumn
  | invalidTimezone (name : String)
  | notConstArg (position : String)
  | invalidOriginInfinity
  | widthNotConst
  | invalidIntervalMonths
  | noTimeBucketFound
  | sortGroupRefNotFound
  | mutableFunction
  | invalidNodeType
  | nameTooLong
  | aggModifiers
  | aggOrderedSet
  | aggNotCombinable
  | aggLookupFailed
  | noConverterFunction
  | unsupportedColType
  | fixedOnVariableBucket
  | incompatibleBucketWidth (message : String)
  | tooManyColumnNames
  | assertFailed
  deriving DecidableEq, Repr

/-! ## Values (`Datum` contents relevant to the embedded code) -/

/-- The body of a PostgreSQL `Interval`: `month`/`day` counters and `time`
in microseconds. -/
structure PGInterval where
  month : Int
  day : Int
  time : Int
  deriving DecidableEq, Repr

/-- A `Datum` as far as the embedded code inspects it. -/
inductive Val where
  | int (i : Int)
  | text (s : String)
  /-- a finite `Timestamp`/`TimestampTz`/`Date` value (internal units) -/
  | time (t : Int)
  /-- a non-finite timestamp (`TIMESTAMP_NOBEGIN`/`NOEND`) -/
  | timeInfinite
  | interval (iv : PGInterval)
  /-- result of `ts_time_datum_get_nobegin_or_min(type)` -/
  | nobeginOrMin (ty : Oid)
  | null
  deriving DecidableEq, Repr

/-! ## Symbolic function and operator identities -/

/-- Identity of a function as the code obtains it: either a plain OID from the
input tree, or the result of a specific catalog lookup. -/
inductive FuncId where
  /-- a `funcid` already present in the analyzed query tree -/
  | oid (n : Nat)
  /-- `LookupFuncName(list_make2(INTERNAL_SCHEMA_NAME, name), ...)` -/
  | internalFn (name : String)
  /-- `ts_get_cast_func(src, tgt)` -/
  | castFn (src tgt : Oid)
  /-- the function implementing an operator (`set_opfuncid`) -/
  | opFunc (opOid : Nat)
  deriving DecidableEq, Repr

/-- Identity of an operator: a plain OID, the type-cache default `<` operator
of a type, or the negator of another operator. -/
inductive OpNo where
  | oid (n : Nat)
  /-- `lookup_type_cache(ty, TYPECACHE_LT_OPR).lt_opr` -/
  | ltOpr (ty : Oid)
  /-- default btree equality operator from `get_sort_group_operators` -/
  | eqOpr (ty : Oid)
  /-- `get_negator(op)` -/
  | negatorOf (op : OpNo)
  deriving DecidableEq, Repr

/-- The function behind an operator, for volatility checks
(`set_opfuncid` + `func_volatile`). -/
def OpNo.funcId : OpNo → FuncId
  | .oid n => .opFunc n
  | .ltOpr ty => .opFunc (1000000 + ty)
  | .eqOpr ty => .opFunc (2000000 + ty)
  | .negatorOf op => match op.funcId with
    | .opFunc n => .opFunc (3000000 + n)
    | f => f

/-! ## Expressions -/

inductive CoerceForm where
  | explicitCall
  | explicitCast
  | implicitCast
  deriving DecidableEq, Repr

/-- Expression nodes, covering the node tags the embedded functions inspect.
`var` carries `(varno, varattno, vartype, vartypmod, varcollid)`;
`constE` carries the `makeConst` fields; `func`/`opExpr` carry their
argument lists; `aggref` carries the fields `cagg_agg_validate` and the
partialize path read (`aggorder`/`aggdistinct` are kept as presence flags).
`boolAndE` is the result of `make_andclause`; `namedArg` is `NamedArgExpr`. -/
inductive Expr where
  | var (varno : Nat) (varattno : Int) (vartype : Oid) (vartypmod : Int) (varcollid : Oid)
  | constE (ty : Oid) (typmod : Int) (collid : Oid) (len : Int)
      (value : Val) (isnull : Bool) (byval : Bool)
  | func (funcid : FuncId) (rettype : Oid) (args : List Expr)
      (funccollid inputcollid : Oid) (form : CoerceForm)
  | opExpr (opno : OpNo) (rettype : Oid) (args : List Expr)
      (opcollid inputcollid : Oid)
  | coalesce (ty : Oid) (collid : Oid) (args : List Expr)
  | aggref (aggfnoid : FuncId) (aggtype : Oid) (args : List Expr)
      (aggorder aggdistinct : Bool) (aggfilter : Option Expr)
  | boolAndE (args : List Expr)
  | namedArg (arg : Expr) (name : String)

/-- `exprType` for the node tags above. -/
def exprType : Expr → Oid
  | .var _ _ ty _ _ => ty
  | .constE ty _ _ _ _ _ _ => ty
  | .func _ ty _ _ _ _ => ty
  | .opExpr _ ty _ _ _ => ty
  | .coalesce ty _ _ => ty
  | .aggref _ ty _ _ _ _ => ty
  | .boolAndE _ => BOOLOID
  | .namedArg a _ => exprType a

/-- `exprTypmod` (defaults to `-1` for the nodes that have no typmod). -/
def exprTypmod : Expr → Int
  | .var _ _ _ tm _ => tm
  | .constE _ tm _ _ _ _ _ => tm
  | .namedArg a _ => exprTypmod a
  | _ => -1

/-- `exprCollation` for the node tags above. -/
def exprCollation : Expr → Oid
  | .var _ _ _ _ c => c
  | .constE _ _ c _ _ _ _ => c
  | .func _ _ _ c _ _ => c
  | .opExpr _ _ _ c _ => c
  | .coalesce _ c _ => c
  | .aggref _ _ _ _ _ _ => InvalidOid
  | .boolAndE _ => InvalidOid
  | .namedArg a _ => exprCollation a

/-! ## Target entries and sort/group clauses -/

/-- `TargetEntry` with the fields the embedded code reads or writes. -/
structure TargetEntry where
  expr : Expr
  resno : Nat
  resname : Option String
  ressortgroupref : Nat
  resorigtbl : Oid
  resorigcol : Int
  resjunk : Bool

/-- `makeTargetEntry(expr, resno, resname, resjunk)`. -/
def makeTargetEntry (e : Expr) (resno : Nat) (resname : Option String)
    (resjunk : Bool) : TargetEntry :=
  { expr := e, resno := resno, resname := resname, ressortgroupref := 0,
    resorigtbl := InvalidOid, resorigcol := 0, resjunk := resjunk }

/-- `SortGroupClause`. -/
structure SortGroupClause where
  tleSortGroupRef : Nat
  eqop : OpNo
  sortop : OpNo
  nulls_first : Bool
  hashable : Bool
  deriving DecidableEq, Repr

/-! ## C1: nested continuous aggregate bucket-width validation -/

/-- `CAggTimebucketInfo` (create.c). -/
structure CAggTimebucketInfo where
  htid : Nat
  parent_mat_hypertable_id : Nat
  htoid : Oid
  htpartcolno : Int
  htpartcoltype : Oid
  htpartcol_interval_len : Int
  bucket_width : Int
  bucket_width_type : Oid
  interval : Option PGInterval
  timezone : Option String
  bucket_func : Option Expr
  origin : Val

/-- Microseconds represented by an interval, months counted as
`DAYS_PER_MONTH` days — the quantity `interval_part('epoch', iv)` measures
in (fractional) seconds. -/
def interval_epoch_usec (iv : PGInterval) : Int :=
  (iv.month * DAYS_PER_MONTH + iv.day) * 86400 * 1000000 + iv.time

/-- `dtoi8` applied to `usec/1e6` seconds: round to nearest integer, ties to
even (C `rint` semantics; exact here because we track microseconds). -/
def dtoi8_usec_to_sec (usec : Int) : Int :=
  let q := usec.fdiv 1000000
  let r := usec.fmod 1000000
  if 2 * r < 1000000 then q
  else if 1000000 < 2 * r then q + 1
  else if q % 2 = 0 then q else q + 1

/-- `get_bucket_width(bucket_info)`: integer widths are returned as-is;
interval widths are converted to whole seconds of epoch, a pure-month
interval being first converted to `month * DAYS_PER_MONTH` days. The
unreachable default branch (`Assert(false)`) leaves the initial `0`. -/
def get_bucket_width (bi : CAggTimebucketInfo) : Int :=
  if bi.bucket_width_type = INT8OID ∨ bi.bucket_width_type = INT4OID ∨
      bi.bucket_width_type = INT2OID then
    bi.bucket_width
  else if bi.bucket_width_type = INTERVALOID then
    match bi.interval with
    | some iv =>
      let iv' := if iv.month ≠ 0 ∧ iv.day = 0 ∧ iv.time = 0 then
          { iv with day := iv.month * DAYS_PER_MONTH, month := 0 }
        else iv
      dtoi8_usec_to_sec (interval_epoch_usec iv')
    | none => 0
  else 0

/-- The `is_greater_or_equal_than_parent && is_multiple_of_parent` computation
of the nested-cagg validation (create.c lines 1538–1548). -/
def nested_bucket_widths_ok (bucket_width bucket_width_parent : Int) : Bool :=
  let is_greater_or_equal_than_parent : Bool :=
    bucket_width ≥ bucket_width_parent
  let is_multiple_of_parent : Bool :=
    if bucket_width_parent ≠ 0 then
      if bucket_width_parent > bucket_width ∧ bucket_width ≠ 0 then
        bucket_width_parent.tmod bucket_width = 0
      else
        bucket_width.tmod bucket_width_parent = 0
    else true
  is_greater_or_equal_than_parent && is_multiple_of_parent

/-- Lines 1506–1588 of `cagg_validate_query`: the nested-cagg validations run
when the new cagg is defined on top of another one. `bi` describes the new
(child) cagg's bucket, `bip` the parent's. The error message carries
"greater or equal than" when the greater-or-equal check failed, otherwise
"multiple of" (the C code overwrites the former over the latter). -/
def cagg_validate_nested (bi bip : CAggTimebucketInfo) : Except CaggErr Unit :=
  if bip.bucket_width = BUCKET_WIDTH_VARIABLE ∧
      bi.bucket_width ≠ BUCKET_WIDTH_VARIABLE then
    .error .fixedOnVariableBucket
  else
    let bucket_width := get_bucket_width bi
    let bucket_width_parent := get_bucket_width bip
    if nested_bucket_widths_ok bucket_width bucket_width_parent then .ok ()
    else
      .error (.incompatibleBucketWidth
        (if bucket_width ≥ bucket_width_parent then "multiple of"
         else "greater or equal than"))

/-- Helper for building concrete `CAggTimebucketInfo` values in examples:
a fixed-width bucket of the given interval. -/
def fixedIntervalBucket (iv : PGInterval) : CAggTimebucketInfo :=
  { htid := 1, parent_mat_hypertable_id := 0, htoid := 100, htpartcolno := 1,
    htpartcoltype := TIMESTAMPTZOID, htpartcol_interval_len := 0,
    bucket_width := (iv.month * DAYS_PER_MONTH + iv.day) * 86400000000 + iv.time,
    bucket_width_type := INTERVALOID, interval := some iv, timezone := none,
    bucket_func := none, origin := Val.timeInfinite }

/-- `tmod` of two positive integers is zero exactly when the second divides
the first. -/
theorem tmod_eq_zero_iff_dvd_of_pos {a b : Int} (ha : 0 < a) (hb : 0 < b) :
    a.tmod b = 0 ↔ b ∣ a := by
  rw [Int.tmod_eq_emod ha.le hb.le]
  exact ⟨Int.dvd_of_emod_eq_zero, Int.emod_eq_zero_of_dvd⟩

/-- For positive widths, the code's greater-or-equal/multiple test agrees
with the spec's "child ≥ parent and the two widths divide evenly". -/
theorem nested_bucket_widths_ok_iff {w wp : Int} (hw : 0 < w) (hwp : 0 < wp) :
    nested_bucket_widths_ok w wp = true ↔
      (wp ≤ w ∧ (w.tmod wp = 0 ∨ wp.tmod w = 0)) := by
  unfold nested_bucket_widths_ok
  simp only [Bool.and_eq_true, decide_eq_true_eq, ge_iff_le]
  constructor
  · rintro ⟨hge, hm⟩
    refine ⟨hge, Or.inl ?_⟩
    rw [if_pos hwp.ne'] at hm
    rw [if_neg (fun h => absurd h.1 (not_lt.mpr hge))] at hm
    exact decide_eq_true_eq.mp hm
  · rintro ⟨hge, hd⟩
    refine ⟨hge, ?_⟩
    rw [if_pos hwp.ne', if_neg (fun h => absurd h.1 (not_lt.mpr hge))]
    rw [decide_eq_true_eq]
    rcases hd with hd | hd
    · exact hd
    · have hdvd : w ∣ wp := (tmod_eq_zero_iff_dvd_of_pos hwp hw).mp hd
      have heq : w = wp := le_antisymm (Int.le_of_dvd hwp hdvd) hge
      rw [heq, Int.tmod_eq_emod hwp.le hwp.le, Int.emod_self]

/-- C1: for a nested continuous aggregate where both the child and the parent
use fixed-width buckets (so that the variable-width gate does not fire, and
the widths are positive, as holds for every bucket accepted by
`caggtimebucket_validate`), the nested-cagg validation succeeds exactly when
the child bucket width is at least the parent bucket width and the two widths
divide evenly; otherwise it reports the incompatible-bucket-width error. -/
theorem nested_bucket_width_validation (bi bip : CAggTimebucketInfo)
    (hfp : bip.bucket_width ≠ BUCKET_WIDTH_VARIABLE)
    (hw : 0 < get_bucket_width bi) (hwp : 0 < get_bucket_width bip) :
    (cagg_validate_nested bi bip = .ok () ↔
      (get_bucket_width bip ≤ get_bucket_width bi ∧
       ((get_bucket_width bi).tmod (get_bucket_width bip) = 0 ∨
        (get_bucket_width bip).tmod (get_bucket_width bi) = 0))) ∧
    (cagg_validate_nested bi bip = .ok () ∨
     ∃ msg, cagg_validate_nested bi bip =
        .error (.incompatibleBucketWidth msg)) := by
  unfold cagg_validate_nested
  rw [if_neg (fun h => hfp h.1)]
  rw [← nested_bucket_widths_ok_iff hw hwp]
  cases hok : nested_bucket_widths_ok (get_bucket_width bi)
      (get_bucket_width bip) <;>
    simp [hok]

/-- Witness for C1 at the spec's concrete examples: parent bucket `1 day`
with child bucket `12 hours` is rejected; parent `1 hour` with child `1 day`
is accepted. -/
theorem nested_bucket_width_validation_witness :
    cagg_validate_nested (fixedIntervalBucket ⟨0, 0, 43200000000⟩)
        (fixedIntervalBucket ⟨0, 1, 0⟩) ≠ .ok () ∧
    cagg_validate_nested (fixedIntervalBucket ⟨0, 1, 0⟩)
        (fixedIntervalBucket ⟨0, 0, 3600000000⟩) = .ok () := by
  constructor
  · intro h
    have h2 := (nested_bucket_width_validation _ _ (by decide) (by decide)
      (by decide)).1.mp h
    revert h2; decide
  · exact (nested_bucket_width_validation _ _ (by decide) (by decide)
      (by decide)).1.mpr (by decide)

/-! ## C5: aggregate validation (`cagg_agg_validate`) -/

/-- The `pg_aggregate` fields read by `cagg_agg_validate`. -/
structure AggForm where
  aggkind : Char
  aggcombinefn : Oid
  aggtranstype : Oid
  aggdeserialfn : Oid
  deriving DecidableEq, Repr

mutual

/-- `cagg_agg_validate` as an `expression_tree_walker` callback: on an
`Aggref` it checks the modifier flags and the `pg_aggregate` row (`cat` is
the `AGGFNOID` syscache) and does not descend into the aggregate's
arguments; on every other node it recurses into the children. -/
def cagg_agg_validate (cat : FuncId → Option AggForm) : Expr → Except CaggErr Unit
  | .aggref aggfnoid _ _ aggorder aggdistinct aggfilter =>
    if aggorder || aggdistinct || aggfilter.isSome then .error .aggModifiers
    else match cat aggfnoid with
      | none => .error .aggLookupFailed
      | some form =>
        if form.aggkind ≠ 'n' then .error .aggOrderedSet
        else if form.aggcombinefn = InvalidOid ∨
            (form.aggtranstype = INTERNALOID ∧
             form.aggdeserialfn = InvalidOid) then
          .error .aggNotCombinable
        else .ok ()
  | .var _ _ _ _ _ => .ok ()
  | .constE _ _ _ _ _ _ _ => .ok ()
  | .func _ _ args _ _ _ => cagg_agg_validate_list cat args
  | .opExpr _ _ args _ _ => cagg_agg_validate_list cat args
  | .coalesce _ _ args => cagg_agg_validate_list cat args
  | .boolAndE args => cagg_agg_validate_list cat args
  | .namedArg a _ => cagg_agg_validate cat a

/-- Walker recursion over a list of child expressions: stops at the first
error (`ereport` aborts). -/
def cagg_agg_validate_list (cat : FuncId → Option AggForm) :
    List Expr → Except CaggErr Unit
  | [] => .ok ()
  | e :: es => match cagg_agg_validate cat e with
    | .ok _ => cagg_agg_validate_list cat es
    | .error err => .error err

end

/-- The walker applied to a target list (each entry's expression). -/
def cagg_agg_validate_tlist (cat : FuncId → Option AggForm) :
    List TargetEntry → Except CaggErr Unit
  | [] => .ok ()
  | te :: tes => match cagg_agg_validate cat te.expr with
    | .ok _ => cagg_agg_validate_tlist cat tes
    | .error err => .error err

/-- Lines 1215–1221 of `cagg_validate_query`: the aggregate checks run only
for non-finalized continuous aggregates ("Finalized cagg doesn't have those
restrictions anymore"). -/
def cagg_validate_query_aggs (cat : FuncId → Option AggForm)
    (finalized : Bool) (tl : List TargetEntry) (having : Option Expr) :
    Except CaggErr Unit :=
  if !finalized then
    match cagg_agg_validate_tlist cat tl with
    | .ok _ => match having with
      | none => .ok ()
      | some e => cagg_agg_validate cat e
    | .error err => .error err
  else .ok ()

mutual

/-- An aggregate call that the claim says must be rejected: it carries
ORDER BY/DISTINCT/FILTER, or it lacks a combine function, or it has the
opaque INTERNAL transition type without a deserialization function. The
search does not descend into aggregate arguments, mirroring the walker. -/
def hasBadAgg (cat : FuncId → Option AggForm) : Expr → Bool
  | .aggref aggfnoid _ _ aggorder aggdistinct aggfilter =>
    aggorder || aggdistinct || aggfilter.isSome ||
      (match cat aggfnoid with
       | some form =>
         decide (form.aggcombinefn = InvalidOid) ||
           (decide (form.aggtranstype = INTERNALOID) &&
            decide (form.aggdeserialfn = InvalidOid))
       | none => false)
  | .var _ _ _ _ _ => false
  | .constE _ _ _ _ _ _ _ => false
  | .func _ _ args _ _ _ => hasBadAggList cat args
  | .opExpr _ _ args _ _ => hasBadAggList cat args
  | .coalesce _ _ args => hasBadAggList cat args
  | .boolAndE args => hasBadAggList cat args
  | .namedArg a _ => hasBadAgg cat a

/-- List version of `hasBadAgg`. -/
def hasBadAggList (cat : FuncId → Option AggForm) : List Expr → Bool
  | [] => false
  | e :: es => hasBadAgg cat e || hasBadAggList cat es

end

mutual

/-- An expression containing an offending aggregate never validates. -/
theorem hasBadAgg_reject (cat : FuncId → Option AggForm) :
    ∀ e : Expr, hasBadAgg cat e = true → cagg_agg_validate cat e ≠ .ok ()
  | .aggref aggfnoid ty args aggorder aggdistinct aggfilter, h => by
    simp only [hasBadAgg, Bool.or_eq_true] at h
    simp only [cagg_agg_validate]
    by_cases hmod : (aggorder || aggdistinct || aggfilter.isSome) = true
    · simp [hmod]
    · rw [if_neg (by simpa [Bool.or_eq_true] using hmod)]
      rcases h with ((ho | hd) | hf) | hform
      · exact absurd (by simp [ho]) hmod
      · exact absurd (by simp [hd]) hmod
      · exact absurd (by simp [hf]) hmod
      · rcases hcat : cat aggfnoid with _ | form
        · simp [hcat]
        · rw [hcat] at hform
          simp only [Bool.or_eq_true, Bool.and_eq_true,
            decide_eq_true_eq] at hform
          simp only [hcat]
          by_cases hkind : form.aggkind ≠ 'n'
          · simp [hkind]
          · rw [if_neg hkind, if_pos]
            · simp
            · tauto
  | .func _ _ args _ _ _, h =>
    hasBadAggList_reject cat args (by simpa [hasBadAgg] using h)
  | .opExpr _ _ args _ _, h =>
    hasBadAggList_reject cat args (by simpa [hasBadAgg] using h)
  | .coalesce _ _ args, h =>
    hasBadAggList_reject cat args (by simpa [hasBadAgg] using h)
  | .boolAndE args, h =>
    hasBadAggList_reject cat args (by simpa [hasBadAgg] using h)
  | .namedArg a _, h =>
    hasBadAgg_reject cat a (by simpa [hasBadAgg] using h)

/-- List version of `hasBadAgg_reject`. -/
theorem hasBadAggList_reject (cat : FuncId → Option AggForm) :
    ∀ es : List Expr, hasBadAggList cat es = true →
      cagg_agg_validate_list cat es ≠ .ok ()
  | e :: es, h => by
    simp only [hasBadAggList, Bool.or_eq_true] at h
    simp only [cagg_agg_validate_list]
    cases hv : cagg_agg_validate cat e with
    | error err => simp
    | ok u =>
      rcases h with h | h
      · exact absurd hv (hasBadAgg_reject cat e h)
      · exact hasBadAggList_reject cat es h

end

/-- Target-list version of `hasBadAgg_reject`. -/
theorem hasBadAggTlist_reject (cat : FuncId → Option AggForm) :
    ∀ tl : List TargetEntry,
      tl.any (fun te => hasBadAgg cat te.expr) = true →
      cagg_agg_validate_tlist cat tl ≠ .ok ()
  | te :: tes, h => by
    simp only [List.any_cons, Bool.or_eq_true] at h
    simp only [cagg_agg_validate_tlist]
    cases hv : cagg_agg_validate cat te.expr with
    | error err => simp
    | ok u =>
      rcases h with h | h
      · exact absurd hv (hasBadAgg_reject cat te.expr h)
      · exact hasBadAggTlist_reject cat tes h

/-- C5 (amended): for a **non-finalized** continuous aggregate query, if the
target list or the HAVING clause uses an aggregate that lacks a combine
function, or has the INTERNAL transition type without a deserialization
function, or carries ORDER BY/DISTINCT/FILTER on the aggregate itself, the
aggregate validation pass rejects the query. -/
theorem cagg_agg_validation_nonfinalized (cat : FuncId → Option AggForm)
    (tl : List TargetEntry) (having : Option Expr)
    (h : tl.any (fun te => hasBadAgg cat te.expr) = true ∨
         (having.map (hasBadAgg cat)).getD false = true) :
    cagg_validate_query_aggs cat false tl having ≠ .ok () := by
  unfold cagg_validate_query_aggs
  simp only [Bool.not_false, if_pos]
  cases htl : cagg_agg_validate_tlist cat tl with
  | error err => simp
  | ok u =>
    rcases h with h | h
    · exact absurd htl (hasBadAggTlist_reject cat tl h)
    · match having, h with
      | some e, h =>
        simp only [Option.map_some', Option.getD_some] at h
        exact hasBadAgg_reject cat e h

/-- A counting aggregate with a DISTINCT modifier. -/
def aggWithDistinct : Expr :=
  .aggref (.oid 2101) INT8OID [Expr.var 1 2 INT4OID (-1) 0] false true none

/-- Catalog in which every aggregate lacks a combine function and has the
INTERNAL transition type with no deserialization function. -/
def catAllBad : FuncId → Option AggForm :=
  fun _ => some ⟨'n', InvalidOid, INTERNALOID, InvalidOid⟩

/-- A target list using `aggWithDistinct`. -/
def tlWithBadAgg : List TargetEntry :=
  [makeTargetEntry aggWithDistinct 1 (some "cnt") false]

/-- C5 counterexample: for a **finalized** continuous aggregate query the
aggregate checks are skipped entirely, so a query whose target list uses an
aggregate with DISTINCT that also lacks a combine function passes this
validation, contradicting the claim's "for every query". -/
theorem cagg_agg_validation_skipped_when_finalized :
    cagg_validate_query_aggs catAllBad true tlWithBadAgg none = .ok () ∧
    hasBadAgg catAllBad aggWithDistinct = true := by
  exact ⟨rfl, rfl⟩

/-- Witness for C5 (amended): the same query is rejected when non-finalized. -/
theorem cagg_agg_validation_nonfinalized_witness :
    cagg_validate_query_aggs catAllBad false tlWithBadAgg none ≠ .ok () := by
  exact cagg_agg_validation_nonfinalized catAllBad tlWithBadAgg none
    (by decide)

/-! ## Materialization-table column info (C6, C7, C10) -/

def OIDOID : Oid := 26

/-- `ColumnDef` with the fields the embedded code sets. -/
structure ColumnDef where
  colname : String
  typeOid : Oid
  typemod : Int
  collOid : Oid
  is_not_null : Bool
  deriving DecidableEq, Repr

/-- `makeColumnDef(colname, typeOid, typmod, collOid)`. -/
def makeColumnDef (colname : String) (typeOid : Oid) (typemod : Int)
    (collOid : Oid) : ColumnDef :=
  { colname := colname, typeOid := typeOid, typemod := typemod,
    collOid := collOid, is_not_null := false }

/-- `MatTableColumnInfo` (create.c); `partial_seltlist`/`partial_grouplist`
are spelled `part_seltlist`/`part_grouplist` here. -/
structure MatTableColumnInfo where
  matcollist : List ColumnDef
  part_seltlist : List TargetEntry
  part_grouplist : List SortGroupClause
  mat_groupcolname_list : List String
  matpartcolno : Int
  matpartcolname : Option String

/-- `mattablecolumninfo_init`. -/
def mattablecolumninfo_init (grouplist : List SortGroupClause) :
    MatTableColumnInfo :=
  { matcollist := [], part_seltlist := [], part_grouplist := grouplist,
    mat_groupcolname_list := [], matpartcolno := -1, matpartcolname := none }

/-- Default hashability from `get_sort_group_operators`; the embedded code
only requests operators for `int4`, which is hashable. -/
def type_is_hashable (_ : Oid) : Bool := true

/-- `mattablecolumninfo_addinternal`: append the chunk-id column to the
materialization column list, a `chunk_id_from_relid(tableoid)` entry to the
population target list, and a matching group clause whose sort-group
reference is one above the maximum found in the target list (the just
appended entry still carries reference 0 during the scan). -/
def mattablecolumninfo_addinternal (matcolinfo : MatTableColumnInfo) :
    MatTableColumnInfo :=
  let colno := matcolinfo.part_seltlist.length + 1
  let vexpr := Expr.var 1 (Int.ofNat colno) INT4OID (-1) InvalidOid
  let col := makeColumnDef CONTINUOUS_AGG_CHUNK_ID_COL_NAME (exprType vexpr)
    (exprTypmod vexpr) (exprCollation vexpr)
  let matcollist' := matcolinfo.matcollist ++ [col]
  let chunkfn_arg1 := Expr.var 1 TableOidAttributeNumber OIDOID (-1) InvalidOid
  let chunk_fnexpr := Expr.func (.internalFn CHUNKIDFROMRELID) INT4OID
    [chunkfn_arg1] InvalidOid InvalidOid .explicitCall
  let chunk_te := makeTargetEntry chunk_fnexpr colno
    (some CONTINUOUS_AGG_CHUNK_ID_COL_NAME) false
  let scanlist := matcolinfo.part_seltlist ++ [chunk_te]
  let maxRef := scanlist.foldl (fun a t => max a t.ressortgroupref) 0
  let chunk_te' := { chunk_te with ressortgroupref := maxRef + 1 }
  let grpcl : SortGroupClause :=
    { tleSortGroupRef := chunk_te'.ressortgroupref, eqop := .eqOpr INT4OID,
      sortop := .ltOpr INT4OID, nulls_first := false,
      hashable := type_is_hashable INT4OID }
  { matcolinfo with
    matcollist := matcollist',
    part_seltlist := matcolinfo.part_seltlist ++ [chunk_te'],
    part_grouplist := matcolinfo.part_grouplist ++ [grpcl] }

/-- Step 0 of `cagg_create` (lines 2653–2658): the internal columns are added
only for non-finalized continuous aggregates. -/
def cagg_create_addinternal (finalized : Bool) (m : MatTableColumnInfo) :
    MatTableColumnInfo :=
  if !finalized then mattablecolumninfo_addinternal m else m

/-- A fold of `max` over sort-group references dominates the start value and
every element. -/
theorem le_foldl_max_ressortgroupref (l : List TargetEntry) (i : Nat) :
    i ≤ l.foldl (fun a t => max a t.ressortgroupref) i ∧
    ∀ t ∈ l, t.ressortgroupref ≤
      l.foldl (fun a t => max a t.ressortgroupref) i := by
  induction l generalizing i with
  | nil => simp
  | cons x xs ih =>
    refine ⟨le_trans (le_max_left _ _) (ih _).1, ?_⟩
    intro t ht
    rcases List.mem_cons.mp ht with rfl | ht
    · exact le_trans (le_max_right _ _) (ih _).1
    · exact (ih _).2 t ht

/-- C6 counterexample: for a finalized continuous aggregate creation no
internal chunk-id column is appended at all — creation leaves the column
list, projection and GROUP BY list unchanged, against the claim's "for every
continuous aggregate creation". -/
theorem chunk_id_column_skipped_when_finalized :
    (cagg_create_addinternal true (mattablecolumninfo_init [])).matcollist.length ≠
      (mattablecolumninfo_init []).matcollist.length + 1 ∧
    cagg_create_addinternal true (mattablecolumninfo_init []) =
      mattablecolumninfo_init [] := by
  exact ⟨by simp [cagg_create_addinternal, mattablecolumninfo_init], rfl⟩

/-- C6 (amended): for every **non-finalized** continuous aggregate creation,
exactly one chunk-id column is appended to the materialization column list,
and one matching entry is appended to the population projection and to its
GROUP BY list, carrying a sort-group reference one above the maximum
reference present in the projection (hence strictly above all of them). -/
theorem chunk_id_column_added_when_not_finalized (m : MatTableColumnInfo) :
    (cagg_create_addinternal false m).matcollist.length =
      m.matcollist.length + 1 ∧
    (cagg_create_addinternal false m).part_seltlist.length =
      m.part_seltlist.length + 1 ∧
    (cagg_create_addinternal false m).part_grouplist.length =
      m.part_grouplist.length + 1 ∧
    ∃ te grpcl,
      (cagg_create_addinternal false m).part_seltlist =
        m.part_seltlist ++ [te] ∧
      (cagg_create_addinternal false m).part_grouplist =
        m.part_grouplist ++ [grpcl] ∧
      (cagg_create_addinternal false m).matcollist =
        m.matcollist ++
          [makeColumnDef CONTINUOUS_AGG_CHUNK_ID_COL_NAME INT4OID (-1)
            InvalidOid] ∧
      grpcl.tleSortGroupRef = te.ressortgroupref ∧
      te.ressortgroupref =
        (m.part_seltlist.foldl (fun a t => max a t.ressortgroupref) 0) + 1 ∧
      ∀ t ∈ m.part_seltlist, t.ressortgroupref < te.ressortgroupref := by
  have hfold : (m.part_seltlist ++
        [makeTargetEntry (Expr.func (.internalFn CHUNKIDFROMRELID) INT4OID
          [Expr.var 1 TableOidAttributeNumber OIDOID (-1) InvalidOid]
          InvalidOid InvalidOid .explicitCall)
          (m.part_seltlist.length + 1)
          (some CONTINUOUS_AGG_CHUNK_ID_COL_NAME) false]).foldl
        (fun a t => max a t.ressortgroupref) 0 =
      m.part_seltlist.foldl (fun a t => max a t.ressortgroupref) 0 := by
    rw [List.foldl_append]
    simp [makeTargetEntry]
  refine ⟨?_, ?_, ?_, ?_⟩
  · simp [cagg_create_addinternal, mattablecolumninfo_addinternal]
  · simp [cagg_create_addinternal, mattablecolumninfo_addinternal]
  · simp [cagg_create_addinternal, mattablecolumninfo_addinternal]
  · simp only [cagg_create_addinternal, Bool.not_false, if_pos,
      mattablecolumninfo_addinternal]
    refine ⟨_, _, rfl, rfl, ?_, rfl, ?_, ?_⟩
    · simp [makeColumnDef, exprType, exprTypmod, exprCollation]
    · exact congrArg (· + 1) hfold
    · intro t ht
      exact Nat.lt_succ_of_le
        ((le_foldl_max_ressortgroupref _ 0).2 t (List.mem_append_left _ ht))

/-! ## `contain_mutable_functions` and `mattablecolumninfo_addentry` -/

mutual

/-- `contain_mutable_functions`: true when the expression contains a call to
a function that is not immutable. `imm` is the `func_volatile(...)==
PROVOLATILE_IMMUTABLE` oracle; operators are checked through the function
that implements them. -/
def contain_mutable_functions (imm : FuncId → Bool) : Expr → Bool
  | .var _ _ _ _ _ => false
  | .constE _ _ _ _ _ _ _ => false
  | .func fid _ args _ _ _ =>
    !imm fid || contain_mutable_list imm args
  | .opExpr op _ args _ _ =>
    !imm op.funcId || contain_mutable_list imm args
  | .coalesce _ _ args => contain_mutable_list imm args
  | .aggref _ _ args _ _ aggfilter =>
    contain_mutable_list imm args ||
      (match aggfilter with
       | some f => contain_mutable_functions imm f
       | none => false)
  | .boolAndE args => contain_mutable_list imm args
  | .namedArg a _ => contain_mutable_functions imm a

/-- List version of `contain_mutable_functions`. -/
def contain_mutable_list (imm : FuncId → Bool) : List Expr → Bool
  | [] => false
  | e :: es => contain_mutable_functions imm e || contain_mutable_list imm es

end

/-- The `Node *input` of `mattablecolumninfo_addentry`: the callers pass an
`Aggref`, a whole `TargetEntry`, or a `Var` (anything else hits the
`invalid node type` branch). -/
inductive MatInput where
  | node (e : Expr)
  | te (t : TargetEntry)

/-- `contain_mutable_functions` applied to a node that may be a bare
`TargetEntry` (the walker descends into its expression). -/
def contain_mutable_input (imm : FuncId → Bool) : MatInput → Bool
  | .node e => contain_mutable_functions imm e
  | .te t => contain_mutable_functions imm t.expr

/-- `PRINT_MATCOLNAME(colbuf, ty, original_query_resno, colno)`: deterministic
column name `ty_resno_colno`, with the `snprintf` overflow check. -/
def print_matcolname (ty : String) (original_query_resno matcolno : Nat) :
    Except CaggErr String :=
  let s := ty ++ "_" ++ toString original_query_resno ++ "_" ++
    toString matcolno
  if NAMEDATALEN ≤ s.length then .error .nameTooLong else .ok s

/-- `get_partialize_funcexpr(agg)` (name abbreviated): wrap the aggregate
in the internal partialize function returning `bytea`. -/
def get_partlz_funcexpr (agg : Expr) : Expr :=
  .func (.internalFn PARTIALFN) BYTEAOID [agg] InvalidOid InvalidOid
    .explicitCall

/-- The column-name / `skip_adding` selection of the `T_TargetEntry` branch
of `mattablecolumninfo_addentry` (create.c lines 1914–1928). -/
def addentry_te_colname (resname : Option String) (timebkt_chk : Bool)
    (original_query_resno matcolno : Nat) (finalized : Bool) :
    Except CaggErr (String × Bool) :=
  match resname with
  | some nm => .ok (nm, false)
  | none =>
    if timebkt_chk then .ok (DEFAULT_MATPARTCOLUMN_NAME, false)
    else
      match print_matcolname "grp" original_query_resno matcolno with
      | .error e => .error e
      | .ok s => .ok (s, finalized)

/-- `skip_adding` can come back true only in finalized form. -/
theorem addentry_te_colname_skip (resname : Option String)
    (timebkt_chk : Bool) (oqr matcolno : Nat) (finalized : Bool) (s : String)
    (b : Bool)
    (h : addentry_te_colname resname timebkt_chk oqr matcolno finalized =
      .ok (s, b)) :
    b = true → finalized = true := by
  unfold addentry_te_colname at h
  split at h
  · rw [Except.ok.injEq, Prod.mk.injEq] at h
    intro hb; rw [hb] at h; exact absurd h.2.symm (by simp)
  · split at h
    · rw [Except.ok.injEq, Prod.mk.injEq] at h
      intro hb; rw [hb] at h; exact absurd h.2.symm (by simp)
    · split at h
      · exact absurd h (by simp)
      · rw [Except.ok.injEq, Prod.mk.injEq] at h
        intro hb; exact h.2.trans hb

/-- Common tail of `mattablecolumninfo_addentry`: append the column def
(unless `skip_adding`), append the partial target entry, and return the
`Var` for the new materialization column. -/
def addentry_finish (out : MatTableColumnInfo) (col : ColumnDef)
    (part_te : TargetEntry) (skip : Bool) (matcolno : Nat) (coltype : Oid)
    (coltypmod : Int) (colcollation : Oid) :
    MatTableColumnInfo × Expr × Bool :=
  ({ out with
      matcollist := if skip then out.matcollist else out.matcollist ++ [col],
      part_seltlist := out.part_seltlist ++ [part_te] },
   Expr.var 1 (Int.ofNat matcolno) coltype coltypmod colcollation, skip)

/-- `mattablecolumninfo_addentry(out, input, original_query_resno, finalized,
&skip_adding)`. The returned triple is the updated column info, the `Var`
returned through the C return value, and the `skip_adding` out-parameter. -/
def mattablecolumninfo_addentry (imm : FuncId → Bool)
    (allowedBucket : FuncId → Bool) (out : MatTableColumnInfo)
    (input : MatInput) (original_query_resno : Nat) (finalized : Bool) :
    Except CaggErr (MatTableColumnInfo × Expr × Bool) :=
  let matcolno := out.matcollist.length + 1
  if contain_mutable_input imm input then .error .mutableFunction
  else
    match input with
    | .node (Expr.aggref f ty args o d fil) =>
      let fexpr := get_partlz_funcexpr (Expr.aggref f ty args o d fil)
      match print_matcolname "agg" original_query_resno matcolno with
      | .error e => .error e
      | .ok colname =>
        let col := makeColumnDef colname BYTEAOID (-1) InvalidOid
        let part_te := makeTargetEntry fexpr matcolno (some colname) false
        .ok (addentry_finish out col part_te false matcolno BYTEAOID (-1)
          InvalidOid)
    | .te tle =>
      let timebkt_chk := match tle.expr with
        | Expr.func fid _ _ _ _ _ => allowedBucket fid
        | _ => false
      match addentry_te_colname tle.resname timebkt_chk original_query_resno
          matcolno finalized with
      | .error e => .error e
      | .ok (colname, skip) =>
        let tle1 := if timebkt_chk then { tle with resname := some colname }
          else tle
        let out1 := if timebkt_chk then
            { out with
              matpartcolno := Int.ofNat matcolno,
              matpartcolname := some colname }
          else if !skip ∧ 0 < tle.ressortgroupref then
            { out with
              mat_groupcolname_list := out.mat_groupcolname_list ++ [colname] }
          else out
        let coltype := exprType tle.expr
        let coltypmod := exprTypmod tle.expr
        let colcollation := exprCollation tle.expr
        let col0 := makeColumnDef colname coltype coltypmod colcollation
        let col := { col0 with is_not_null := timebkt_chk }
        let part_te0 := if !finalized || timebkt_chk then
            { tle1 with resjunk := false } else tle1
        let part_te1 := { part_te0 with resno := matcolno }
        let part_te := if part_te1.resname = none then
            { part_te1 with resname := some colname } else part_te1
        .ok (addentry_finish out1 col part_te skip matcolno coltype coltypmod
          colcollation)
    | .node (Expr.var vn att ty tm coll) =>
      match print_matcolname "var" original_query_resno matcolno with
      | .error e => .error e
      | .ok colname =>
        let col := makeColumnDef colname ty tm coll
        let part_te :=
          { makeTargetEntry (Expr.var vn att ty tm coll) matcolno
              (some colname) false with resjunk := false, resno := matcolno }
        .ok (addentry_finish out col part_te false matcolno ty tm coll)
    | .node _ => .error .invalidNodeType

/-- C10: every successful `mattablecolumninfo_addentry` call appends exactly
one entry to the partial-select target list, appends a materialization column
definition iff `skip_adding` came back false (`skip_adding` is always false
when `finalized` is false), and preserves the column-count invariant:
equality of the two list lengths for non-finalized form, and
`matcollist ≤ part_seltlist` for finalized form. -/
theorem addentry_appends_exactly_one (imm allowedBucket : FuncId → Bool)
    (out : MatTableColumnInfo) (input : MatInput)
    (original_query_resno : Nat) (finalized : Bool)
    (r : MatTableColumnInfo × Expr × Bool)
    (h : mattablecolumninfo_addentry imm allowedBucket out input
        original_query_resno finalized = .ok r) :
    r.1.part_seltlist.length = out.part_seltlist.length + 1 ∧
    (r.2.2 = false → r.1.matcollist.length = out.matcollist.length + 1) ∧
    (r.2.2 = true → r.1.matcollist = out.matcollist) ∧
    (finalized = false → r.2.2 = false) ∧
    (finalized = false → out.matcollist.length = out.part_seltlist.length →
      r.1.matcollist.length = r.1.part_seltlist.length) ∧
    (out.matcollist.length ≤ out.part_seltlist.length →
      r.1.matcollist.length ≤ r.1.part_seltlist.length) := by
  have hfin : ∀ (o : MatTableColumnInfo) col te (sk : Bool) n ty tm co,
      r = addentry_finish o col te sk n ty tm co →
      o.part_seltlist = out.part_seltlist →
      o.matcollist = out.matcollist →
      (sk = true → finalized = true) →
      (r.1.part_seltlist.length = out.part_seltlist.length + 1 ∧
       (r.2.2 = false → r.1.matcollist.length = out.matcollist.length + 1) ∧
       (r.2.2 = true → r.1.matcollist = out.matcollist) ∧
       (finalized = false → r.2.2 = false) ∧
       (finalized = false →
         out.matcollist.length = out.part_seltlist.length →
         r.1.matcollist.length = r.1.part_seltlist.length) ∧
       (out.matcollist.length ≤ out.part_seltlist.length →
         r.1.matcollist.length ≤ r.1.part_seltlist.length)) := by
    intro o col te sk n ty tm co hr hsel hmat hskfin
    subst hr
    cases sk with
    | false =>
      simp [addentry_finish, hsel, hmat] <;> omega
    | true =>
      have hf := hskfin rfl
      simp [addentry_finish, hsel, hmat, hf] <;> omega
  unfold mattablecolumninfo_addentry at h
  split at h
  · exact absurd h (by simp)
  · split at h
    · -- Aggref branch
      dsimp only at h
      split at h
      · exact absurd h (by simp)
      · rw [Except.ok.injEq] at h
        exact hfin _ _ _ _ _ _ _ _ h.symm rfl rfl (by simp)
    · -- TargetEntry branch
      dsimp only at h
      split at h
      · exact absurd h (by simp)
      · rw [Except.ok.injEq] at h
        exact hfin _ _ _ _ _ _ _ _ h.symm
          (by split <;> (try split) <;> rfl)
          (by split <;> (try split) <;> rfl)
          (addentry_te_colname_skip _ _ _ _ _ _ _ (by assumption))
    · -- Var branch
      dsimp only at h
      split at h
      · exact absurd h (by simp)
      · rw [Except.ok.injEq] at h
        exact hfin _ _ _ _ _ _ _ _ h.symm rfl rfl (by simp)
    · -- invalid node type
      exact absurd h (by simp)

/-- A concrete `addentry` input: a bare `Var` for column 5 of relation 2. -/
def addentry_witness_input : MatInput :=
  .node (Expr.var 2 5 INT8OID (-1) InvalidOid)

/-- The result of `mattablecolumninfo_addentry` on `addentry_witness_input`
over an empty column info in non-finalized form. -/
def addentry_witness_result : MatTableColumnInfo × Expr × Bool :=
  ({ mattablecolumninfo_init [] with
     matcollist := [makeColumnDef "var_1_1" INT8OID (-1) InvalidOid],
     part_seltlist :=
       [{ makeTargetEntry (Expr.var 2 5 INT8OID (-1) InvalidOid) 1
            (some "var_1_1") false with resjunk := false, resno := 1 }] },
   Expr.var 1 1 INT8OID (-1) InvalidOid, false)

/-- Witness for C10 at a concrete call. -/
theorem addentry_appends_exactly_one_witness :
    addentry_witness_result.1.part_seltlist.length =
      (mattablecolumninfo_init []).part_seltlist.length + 1 :=
  (addentry_appends_exactly_one (fun _ => true) (fun _ => false)
    (mattablecolumninfo_init []) addentry_witness_input 1 false
    addentry_witness_result rfl).1

/-! ## Finalize-query construction (`finalizequery_init` and its mutators) -/

/-- `AggPartCxt` (create.c). -/
structure AggPartCxt where
  mattblinfo : MatTableColumnInfo
  added_aggref_col : Bool
  var_outside_of_aggref : Bool
  ignore_aggoid : FuncId
  original_query_resno : Nat
  orig_vars : List Expr
  mapped_vars : List Expr

/-- `get_finalize_aggref(agg, inpcol)`: replace the aggregate by a
`finalize_agg` aggregate reading the serialized state column. The real
argument list also carries the aggregate's textual signature, collation
names and argument-type descriptors as constants; those constants are
irrelevant to every claim checked here and are abbreviated away, keeping the
two essential arguments: the `bytea` state column and the null placeholder
of the aggregate's return type. -/
def get_finalize_aggref (agg : Expr) (inpcol : Expr) : Expr :=
  .aggref (.internalFn FINALFN) (exprType agg)
    [inpcol,
     Expr.constE (exprType agg) (-1) InvalidOid (-1) Val.null true false]
    false false none

/-- `add_partialize_column(agg_to_partialize, cxt)` (name abbreviated):
allocate the materialization column for the aggregate and return the
finalize expression for it; sets `added_aggref_col`. -/
def add_partlz_column (imm allowedBucket : FuncId → Bool) (agg : Expr)
    (cxt : AggPartCxt) : Except CaggErr (Expr × AggPartCxt) :=
  match mattablecolumninfo_addentry imm allowedBucket cxt.mattblinfo
      (.node agg) cxt.original_query_resno false with
  | .error e => .error e
  | .ok (m', v, _skip) =>
    .ok (get_finalize_aggref agg v,
      { cxt with mattblinfo := m', added_aggref_col := true })

mutual

/-- `add_aggregate_partialize_mutator` (name abbreviated): replace every
aggregate by its partialize/finalize pair; flag variables found outside
aggregates. -/
def add_agg_partlz_mutator (imm allowedBucket : FuncId → Bool)
    (cxt : AggPartCxt) : Expr → Except CaggErr (Expr × AggPartCxt)
  | .aggref f ty args o d fil =>
    if cxt.ignore_aggoid = f then .ok (.aggref f ty args o d fil, cxt)
    else add_partlz_column imm allowedBucket (.aggref f ty args o d fil) cxt
  | .var vn att ty tm coll =>
    .ok (.var vn att ty tm coll,
      { cxt with var_outside_of_aggref := true })
  | .constE ty tm c l v n b => .ok (.constE ty tm c l v n b, cxt)
  | .func fid rt args c i fm =>
    match add_agg_partlz_mutator_list imm allowedBucket cxt args with
    | .error e => .error e
    | .ok (args', cxt') => .ok (.func fid rt args' c i fm, cxt')
  | .opExpr op rt args c i =>
    match add_agg_partlz_mutator_list imm allowedBucket cxt args with
    | .error e => .error e
    | .ok (args', cxt') => .ok (.opExpr op rt args' c i, cxt')
  | .coalesce ty c args =>
    match add_agg_partlz_mutator_list imm allowedBucket cxt args with
    | .error e => .error e
    | .ok (args', cxt') => .ok (.coalesce ty c args', cxt')
  | .boolAndE args =>
    match add_agg_partlz_mutator_list imm allowedBucket cxt args with
    | .error e => .error e
    | .ok (args', cxt') => .ok (.boolAndE args', cxt')
  | .namedArg a nm =>
    match add_agg_partlz_mutator imm allowedBucket cxt a with
    | .error e => .error e
    | .ok (a', cxt') => .ok (.namedArg a' nm, cxt')

/-- Child-list recursion of `add_agg_partlz_mutator`. -/
def add_agg_partlz_mutator_list (imm allowedBucket : FuncId → Bool)
    (cxt : AggPartCxt) : List Expr → Except CaggErr (List Expr × AggPartCxt)
  | [] => .ok ([], cxt)
  | e :: es =>
    match add_agg_partlz_mutator imm allowedBucket cxt e with
    | .error err => .error err
    | .ok (e', cxt') =>
      match add_agg_partlz_mutator_list imm allowedBucket cxt' es with
      | .error err => .error err
      | .ok (es', cxt'') => .ok (e' :: es', cxt'')

end

/-- `var_already_mapped(var, cxt)`: scan the parallel original/mapped lists
for a variable with the same `varno`/`varattno`. The original list only ever
contains `Var` nodes; anything else cannot match. -/
def var_already_mapped : List Expr → List Expr → Nat → Int → Option Expr
  | o :: os, m :: ms, vn, att =>
    match o with
    | .var ovn oatt _ _ _ =>
      if ovn = vn ∧ oatt = att then some m
      else var_already_mapped os ms vn att
    | _ => var_already_mapped os ms vn att
  | _, _, _, _ => none

mutual

/-- `add_var_mutator`: map every variable outside an aggregate to its
materialization column, de-duplicating through the mapping lists. -/
def add_var_mutator (imm allowedBucket : FuncId → Bool) (cxt : AggPartCxt) :
    Expr → Except CaggErr (Expr × AggPartCxt)
  | .aggref f ty args o d fil => .ok (.aggref f ty args o d fil, cxt)
  | .var vn att ty tm coll =>
    match var_already_mapped cxt.orig_vars cxt.mapped_vars vn att with
    | some mv => .ok (mv, cxt)
    | none =>
      match mattablecolumninfo_addentry imm allowedBucket cxt.mattblinfo
          (.node (.var vn att ty tm coll)) cxt.original_query_resno false with
      | .error e => .error e
      | .ok (m', mapped, _skip) =>
        .ok (mapped,
          { cxt with
            mattblinfo := m',
            orig_vars := cxt.orig_vars ++ [.var vn att ty tm coll],
            mapped_vars := cxt.mapped_vars ++ [mapped] })
  | .constE ty tm c l v n b => .ok (.constE ty tm c l v n b, cxt)
  | .func fid rt args c i fm =>
    match add_var_mutator_list imm allowedBucket cxt args with
    | .error e => .error e
    | .ok (args', cxt') => .ok (.func fid rt args' c i fm, cxt')
  | .opExpr op rt args c i =>
    match add_var_mutator_list imm allowedBucket cxt args with
    | .error e => .error e
    | .ok (args', cxt') => .ok (.opExpr op rt args' c i, cxt')
  | .coalesce ty c args =>
    match add_var_mutator_list imm allowedBucket cxt args with
    | .error e => .error e
    | .ok (args', cxt') => .ok (.coalesce ty c args', cxt')
  | .boolAndE args =>
    match add_var_mutator_list imm allowedBucket cxt args with
    | .error e => .error e
    | .ok (args', cxt') => .ok (.boolAndE args', cxt')
  | .namedArg a nm =>
    match add_var_mutator imm allowedBucket cxt a with
    | .error e => .error e
    | .ok (a', cxt') => .ok (.namedArg a' nm, cxt')

/-- Child-list recursion of `add_var_mutator`. -/
def add_var_mutator_list (imm allowedBucket : FuncId → Bool)
    (cxt : AggPartCxt) : List Expr → Except CaggErr (List Expr × AggPartCxt)
  | [] => .ok ([], cxt)
  | e :: es =>
    match add_var_mutator imm allowedBucket cxt e with
    | .error err => .error err
    | .ok (e', cxt') =>
      match add_var_mutator_list imm allowedBucket cxt' es with
      | .error err => .error err
      | .ok (es', cxt'') => .ok (e' :: es', cxt'')

end

mutual

/-- Structural equality of expression trees (PostgreSQL `equal()`). -/
def exprEq : Expr → Expr → Bool
  | .var a b c d e, .var a' b' c' d' e' =>
    a == a' && b == b' && c == c' && d == d' && e == e'
  | .constE a b c d e f g, .constE a' b' c' d' e' f' g' =>
    a == a' && b == b' && c == c' && d == d' && e == e' && f == f' && g == g'
  | .func f r args c i fm, .func f' r' args' c' i' fm' =>
    f == f' && r == r' && exprEqList args args' && c == c' && i == i' &&
      fm == fm'
  | .opExpr op r args c i, .opExpr op' r' args' c' i' =>
    op == op' && r == r' && exprEqList args args' && c == c' && i == i'
  | .coalesce t c args, .coalesce t' c' args' =>
    t == t' && c == c' && exprEqList args args'
  | .aggref f t args o d fil, .aggref f' t' args' o' d' fil' =>
    f == f' && t == t' && exprEqList args args' && o == o' && d == d' &&
      exprEqOpt fil fil'
  | .boolAndE args, .boolAndE args' => exprEqList args args'
  | .namedArg a n, .namedArg a' n' => exprEq a a' && n == n'
  | _, _ => false

/-- List version of `exprEq`. -/
def exprEqList : List Expr → List Expr → Bool
  | [], [] => true
  | a :: as, b :: bs => exprEq a b && exprEqList as bs
  | _, _ => false

/-- Option version of `exprEq`. -/
def exprEqOpt : Option Expr → Option Expr → Bool
  | none, none => true
  | some a, some b => exprEq a b
  | _, _ => false

end

/-- The `forboth` scan of `create_replace_having_qual_mutator`: find the
modified target-list expression paired with an original entry structurally
equal to `node`. -/
def find_in_tlists (node : Expr) :
    List TargetEntry → List TargetEntry → Option Expr
  | te :: tes, modte :: modtes =>
    if exprEq node te.expr then some modte.expr
    else find_in_tlists node tes modtes
  | _, _ => none

mutual

/-- `create_replace_having_qual_mutator`: replace subexpressions already in
the target list by their rewritten form; materialize aggregates not found
there. -/
def replace_having_qual_mutator (imm allowedBucket : FuncId → Bool)
    (origtl modtl : List TargetEntry) (cxt : AggPartCxt) :
    Expr → Except CaggErr (Expr × AggPartCxt)
  | .aggref f ty args o d fil =>
    match find_in_tlists (.aggref f ty args o d fil) origtl modtl with
    | some res => .ok (res, cxt)
    | none =>
      add_partlz_column imm allowedBucket (.aggref f ty args o d fil)
        { cxt with added_aggref_col := false }
  | .var vn att ty tm coll =>
    match find_in_tlists (.var vn att ty tm coll) origtl modtl with
    | some res => .ok (res, cxt)
    | none => .ok (.var vn att ty tm coll, cxt)
  | .constE ty tm c l v n b =>
    match find_in_tlists (.constE ty tm c l v n b) origtl modtl with
    | some res => .ok (res, cxt)
    | none => .ok (.constE ty tm c l v n b, cxt)
  | .func fid rt args c i fm =>
    match find_in_tlists (.func fid rt args c i fm) origtl modtl with
    | some res => .ok (res, cxt)
    | none =>
      match replace_having_qual_mutator_list imm allowedBucket origtl modtl
          cxt args with
      | .error err => .error err
      | .ok (args', cxt') => .ok (.func fid rt args' c i fm, cxt')
  | .opExpr op rt args c i =>
    match find_in_tlists (.opExpr op rt args c i) origtl modtl with
    | some res => .ok (res, cxt)
    | none =>
      match replace_having_qual_mutator_list imm allowedBucket origtl modtl
          cxt args with
      | .error err => .error err
      | .ok (args', cxt') => .ok (.opExpr op rt args' c i, cxt')
  | .coalesce ty c args =>
    match find_in_tlists (.coalesce ty c args) origtl modtl with
    | some res => .ok (res, cxt)
    | none =>
      match replace_having_qual_mutator_list imm allowedBucket origtl modtl
          cxt args with
      | .error err => .error err
      | .ok (args', cxt') => .ok (.coalesce ty c args', cxt')
  | .boolAndE args =>
    match find_in_tlists (.boolAndE args) origtl modtl with
    | some res => .ok (res, cxt)
    | none =>
      match replace_having_qual_mutator_list imm allowedBucket origtl modtl
          cxt args with
      | .error err => .error err
      | .ok (args', cxt') => .ok (.boolAndE args', cxt')
  | .namedArg a nm =>
    match find_in_tlists (.namedArg a nm) origtl modtl with
    | some res => .ok (res, cxt)
    | none =>
      match replace_having_qual_mutator imm allowedBucket origtl modtl
          cxt a with
      | .error err => .error err
      | .ok (a', cxt') => .ok (.namedArg a' nm, cxt')

/-- Child-list recursion of `replace_having_qual_mutator`. -/
def replace_having_qual_mutator_list (imm allowedBucket : FuncId → Bool)
    (origtl modtl : List TargetEntry) (cxt : AggPartCxt) :
    List Expr → Except CaggErr (List Expr × AggPartCxt)
  | [] => .ok ([], cxt)
  | e :: es =>
    match replace_having_qual_mutator imm allowedBucket origtl modtl
        cxt e with
    | .error err => .error err
    | .ok (e', cxt') =>
      match replace_having_qual_mutator_list imm allowedBucket origtl modtl
          cxt' es with
      | .error err => .error err
      | .ok (es', cxt'') => .ok (e' :: es', cxt'')

end

/-- `finalizequery_create_havingqual`. -/
def finalizequery_create_havingqual (imm allowedBucket : FuncId → Bool)
    (orig_tl : List TargetEntry) (havingQual : Option Expr)
    (final_seltlist : List TargetEntry) (mattblinfo : MatTableColumnInfo) :
    Except CaggErr (Option Expr × MatTableColumnInfo) :=
  match havingQual with
  | none => .ok (none, mattblinfo)
  | some hq =>
    let cxt : AggPartCxt :=
      { mattblinfo := mattblinfo, added_aggref_col := false,
        var_outside_of_aggref := false, ignore_aggoid := .internalFn FINALFN,
        original_query_resno := 0, orig_vars := [], mapped_vars := [] }
    match replace_having_qual_mutator imm allowedBucket orig_tl final_seltlist
        cxt hq with
    | .error e => .error e
    | .ok (hq', cxt') => .ok (some hq', cxt'.mattblinfo)

/-- `FinalizeQueryInfo` (the `final_userquery` copy is not carried: no
embedded claim reads it). -/
structure FinalizeQueryInfo where
  final_seltlist : List TargetEntry
  final_havingqual : Option Expr
  finalized : Bool

/-- The `foreach` target-list loop of `finalizequery_init` (create.c lines
2340–2413). `resno` is the loop counter; it is not advanced for entries
skipped in finalized form (the C `continue` bypasses `resno++`). The tail of
an iteration (leftover-variable mutation, `resno` advance, `resorigcol`
fixup, entry append) appears twice, matching the two paths that reach it. -/
def fqi_loop (imm allowedBucket : FuncId → Bool) (finalized : Bool) :
    List TargetEntry → Nat → AggPartCxt →
    List TargetEntry → Except CaggErr (List TargetEntry × AggPartCxt)
  | [], _, cxt, acc => .ok (acc, cxt)
  | tle :: rest, resno, cxt, acc =>
    let cxt0 := { cxt with
      added_aggref_col := false, var_outside_of_aggref := false,
      original_query_resno := resno }
    let step1 : Except CaggErr (TargetEntry × AggPartCxt) :=
      if !finalized then
        match add_agg_partlz_mutator imm allowedBucket cxt0 tle.expr with
        | .error e => .error e
        | .ok (e', c') => .ok ({ tle with expr := e' }, c')
      else .ok (tle, cxt0)
    match step1 with
    | .error e => .error e
    | .ok (modte, cxt1) =>
      if cxt1.added_aggref_col = false ∧
          (tle.resjunk = false ∨ 0 < tle.ressortgroupref) then
        match mattablecolumninfo_addentry imm allowedBucket cxt1.mattblinfo
            (.te tle) cxt1.original_query_resno finalized with
        | .error e => .error e
        | .ok (m', v, skip) =>
          let cxt2 := { cxt1 with mattblinfo := m' }
          if skip then
            fqi_loop imm allowedBucket finalized rest resno cxt2 acc
          else
            let modte' := { modte with expr := v }
            let step2 : Except CaggErr (TargetEntry × AggPartCxt) :=
              if cxt2.added_aggref_col ∧ cxt2.var_outside_of_aggref ∧
                  !finalized then
                match add_var_mutator imm allowedBucket cxt2 modte'.expr with
                | .error e => .error e
                | .ok (e', c') => .ok ({ modte' with expr := e' }, c')
              else .ok (modte', cxt2)
            match step2 with
            | .error e => .error e
            | .ok (modte1, cxt') =>
              let modte2 := match modte1.expr with
                | .var _ att _ _ _ => { modte1 with resorigcol := att }
                | _ => modte1
              fqi_loop imm allowedBucket finalized rest (resno + 1) cxt'
                (acc ++ [modte2])
      else
        let step2 : Except CaggErr (TargetEntry × AggPartCxt) :=
          if cxt1.added_aggref_col ∧ cxt1.var_outside_of_aggref ∧
              !finalized then
            match add_var_mutator imm allowedBucket cxt1 modte.expr with
            | .error e => .error e
            | .ok (e', c') => .ok ({ modte with expr := e' }, c')
          else .ok (modte, cxt1)
        match step2 with
        | .error e => .error e
        | .ok (modte1, cxt') =>
          let modte2 := match modte1.expr with
            | .var _ att _ _ _ => { modte1 with resorigcol := att }
            | _ => modte1
          fqi_loop imm allowedBucket finalized rest (resno + 1) cxt'
            (acc ++ [modte2])

/-- `finalizequery_init(inp, orig_query, mattblinfo)`: build the finalize
target list (and, for non-finalized form, the rewritten HAVING clause),
updating the materialization column info on the side. -/
def finalizequery_init (imm allowedBucket : FuncId → Bool) (finalized : Bool)
    (orig_tl : List TargetEntry) (orig_having : Option Expr)
    (mattblinfo : MatTableColumnInfo) :
    Except CaggErr (FinalizeQueryInfo × MatTableColumnInfo) :=
  let cxt0 : AggPartCxt :=
    { mattblinfo := mattblinfo, added_aggref_col := false,
      var_outside_of_aggref := false, ignore_aggoid := .oid InvalidOid,
      original_query_resno := 1, orig_vars := [], mapped_vars := [] }
  match fqi_loop imm allowedBucket finalized orig_tl 1 cxt0 [] with
  | .error e => .error e
  | .ok (seltl, cxt) =>
    if !finalized then
      match finalizequery_create_havingqual imm allowedBucket orig_tl
          orig_having seltl cxt.mattblinfo with
      | .error e => .error e
      | .ok (hq, m') =>
        .ok ({ final_seltlist := seltl, final_havingqual := hq,
               finalized := finalized }, m')
    else
      .ok ({ final_seltlist := seltl, final_havingqual := none,
             finalized := finalized }, cxt.mattblinfo)

/-- `Except.isOk` specialized to `CaggErr`. -/
def exceptIsOk {α : Type} : Except CaggErr α → Bool
  | .ok _ => true
  | .error _ => false

/-- A mutable input makes `mattablecolumninfo_addentry` fail immediately. -/
theorem addentry_mutable_error (imm allowedBucket : FuncId → Bool)
    (out : MatTableColumnInfo) (input : MatInput) (oqr : Nat) (fin : Bool)
    (h : contain_mutable_input imm input = true) :
    mattablecolumninfo_addentry imm allowedBucket out input oqr fin =
      .error .mutableFunction := by
  unfold mattablecolumninfo_addentry
  rw [if_pos h]

/-- In finalized form, the target-list loop of `finalizequery_init` fails
whenever some projected-or-grouped entry contains a mutable function. -/
theorem fqi_loop_mutable_rejected (imm allowedBucket : FuncId → Bool) :
    ∀ (tl : List TargetEntry),
      (∃ te ∈ tl, (te.resjunk = false ∨ 0 < te.ressortgroupref) ∧
        contain_mutable_functions imm te.expr = true) →
      ∀ (resno : Nat) (cxt : AggPartCxt) (acc : List TargetEntry)
        (r : List TargetEntry × AggPartCxt),
        fqi_loop imm allowedBucket true tl resno cxt acc ≠ .ok r := by
  intro tl
  induction tl with
  | nil =>
    rintro ⟨te, hmem, _⟩
    exact absurd hmem (List.not_mem_nil te)
  | cons hd rest ih =>
    rintro ⟨te, hmem, hjunk, hmut⟩ resno cxt acc r
    rw [List.mem_cons] at hmem
    unfold fqi_loop
    simp only [Bool.not_true, Bool.false_eq_true, if_false]
    rcases hmem with rfl | hmem
    · rw [if_pos ⟨trivial, hjunk⟩]
      rw [addentry_mutable_error imm allowedBucket _ _ _ _
        (by simpa [contain_mutable_input] using hmut)]
      simp
    · by_cases hcond : (hd.resjunk = false ∨ 0 < hd.ressortgroupref)
      · rw [if_pos ⟨trivial, hcond⟩]
        cases haddr : mattablecolumninfo_addentry imm allowedBucket
            _ (.te hd) resno true with
        | error e => simp
        | ok t =>
          obtain ⟨m', v, skip⟩ := t
          cases skip with
          | true =>
            simp only [if_true, Bool.true_eq_false]
            exact ih ⟨te, hmem, hjunk, hmut⟩ _ _ _ _
          | false =>
            simp only [Bool.false_eq_true, if_false, Bool.not_true,
              and_false, if_neg, not_false_eq_true]
            exact ih ⟨te, hmem, hjunk, hmut⟩ _ _ _ _
      · rw [if_neg (fun hc => hcond hc.2)]
        simp only [Bool.not_true, and_false, Bool.false_eq_true, if_false]
        exact ih ⟨te, hmem, hjunk, hmut⟩ _ _ _ _

/-- C7 (amended): in the current (finalized) form, every target-list entry
that is projected (not resjunk) or grouped is passed through
`mattablecolumninfo_addentry`, so if any of them contains a non-immutable
function, creation is rejected; and the HAVING clause plays no role in this
form — `finalizequery_init` gives the same result whatever the HAVING
clause contains. -/
theorem mutable_function_rejected_finalized (imm allowedBucket : FuncId → Bool)
    (tl : List TargetEntry) (having : Option Expr) (m : MatTableColumnInfo)
    (h : ∃ te ∈ tl, (te.resjunk = false ∨ 0 < te.ressortgroupref) ∧
      contain_mutable_functions imm te.expr = true) :
    exceptIsOk (finalizequery_init imm allowedBucket true tl having m) =
      false ∧
    (∀ h1 h2 : Option Expr,
      finalizequery_init imm allowedBucket true tl h1 m =
        finalizequery_init imm allowedBucket true tl h2 m) := by
  constructor
  · unfold finalizequery_init
    dsimp only
    cases hl : fqi_loop imm allowedBucket true tl 1
        { mattblinfo := m, added_aggref_col := false,
          var_outside_of_aggref := false, ignore_aggoid := .oid InvalidOid,
          original_query_resno := 1, orig_vars := [], mapped_vars := [] }
        [] with
    | error e => rfl
    | ok p => exact absurd hl (fqi_loop_mutable_rejected _ _ tl h _ _ _ p)
  · intro h1 h2
    unfold finalizequery_init
    dsimp only
    cases fqi_loop imm allowedBucket true tl 1
        { mattblinfo := m, added_aggref_col := false,
          var_outside_of_aggref := false, ignore_aggoid := .oid InvalidOid,
          original_query_resno := 1, orig_vars := [], mapped_vars := [] }
        [] <;> rfl

/-- Volatility oracle under which only function OID 42 is mutable. -/
def c7imm : FuncId → Bool := fun f => match f with
  | .oid 42 => false
  | _ => true

/-- A call to the mutable function OID 42, e.g. `now()`. -/
def c7mutableCall : Expr :=
  .func (.oid 42) TIMESTAMPTZOID [] InvalidOid InvalidOid .explicitCall

/-- An innocuous single-column target list. -/
def c7tl : List TargetEntry :=
  [makeTargetEntry (Expr.var 1 1 INT8OID (-1) InvalidOid) 1 (some "a") false]

/-- C7 counterexample: a finalized continuous aggregate whose HAVING clause
contains a mutable function call is **not** rejected — `finalizequery_init`
succeeds, although the HAVING expression contains a non-immutable function,
against the claim's "any expression in the target list or in the HAVING
clause". -/
theorem mutable_in_having_accepted_when_finalized :
    exceptIsOk (finalizequery_init c7imm (fun _ => false) true c7tl
      (some c7mutableCall) (mattablecolumninfo_init [])) = true ∧
    contain_mutable_functions c7imm c7mutableCall = true := by
  exact ⟨rfl, rfl⟩

/-- A target list whose only entry projects the mutable call. -/
def c7tlBad : List TargetEntry :=
  [makeTargetEntry c7mutableCall 1 (some "f") false]

/-- Witness for C7 (amended) at a concrete query. -/
theorem mutable_function_rejected_finalized_witness :
    exceptIsOk (finalizequery_init c7imm (fun _ => false) true c7tlBad none
      (mattablecolumninfo_init [])) = false :=
  (mutable_function_rejected_finalized c7imm (fun _ => false) c7tlBad none
    (mattablecolumninfo_init [])
    ⟨List.head c7tlBad (by simp [c7tlBad]), by simp [c7tlBad], by decide⟩).1

/-! ## C9: view column aliases (`fixup_userview_query_tlist`) -/

/-- The alias-assignment loop of `fixup_userview_query_tlist`: junk entries
are skipped, each non-junk entry takes the next alias, the loop breaks when
aliases run out, and leftover aliases raise the too-many-column-names
error. -/
def fixup_tlist_go : List TargetEntry → List String →
    Except CaggErr (List TargetEntry)
  | ts, [] => .ok ts
  | [], _ :: _ => .error .tooManyColumnNames
  | t :: ts, a :: as =>
    if t.resjunk then
      match fixup_tlist_go ts (a :: as) with
      | .error e => .error e
      | .ok ts' => .ok (t :: ts')
    else
      match fixup_tlist_go ts as with
      | .error e => .error e
      | .ok ts' => .ok ({ t with resname := some a } :: ts')

/-- `fixup_userview_query_tlist(userquery, tlist_aliases)` on the query's
target list; with no aliases the list is untouched. -/
def fixup_userview_query_tlist (tl : List TargetEntry)
    (tlist_aliases : List String) : Except CaggErr (List TargetEntry) :=
  if tlist_aliases.isEmpty then .ok tl
  else fixup_tlist_go tl tlist_aliases

/-- The claim's assignment discipline, written from the spec's words: the
supplied column names are assigned positionally to the non-resjunk entries,
resjunk entries are skipped and kept, and entries beyond the alias list keep
their original names. -/
def assign_aliases_spec : List TargetEntry → List String → List TargetEntry
  | ts, [] => ts
  | [], _ => []
  | t :: ts, a :: as =>
    if t.resjunk then t :: assign_aliases_spec ts (a :: as)
    else { t with resname := some a } :: assign_aliases_spec ts as

/-- Loop-level characterization of `fixup_tlist_go`. -/
theorem fixup_tlist_go_spec :
    ∀ (tl : List TargetEntry) (aliases : List String),
      (fixup_tlist_go tl aliases = .error .tooManyColumnNames ↔
        tl.countP (fun t => !t.resjunk) < aliases.length) ∧
      (aliases.length ≤ tl.countP (fun t => !t.resjunk) →
        fixup_tlist_go tl aliases = .ok (assign_aliases_spec tl aliases))
  | tl, [] => by
    constructor
    · simp [fixup_tlist_go]
    · intro _
      cases tl <;> simp [fixup_tlist_go, assign_aliases_spec]
  | [], a :: as => by
    constructor
    · simp [fixup_tlist_go, List.countP_nil]
    · intro hle
      rw [List.countP_nil] at hle
      exact absurd hle (by simp)
  | t :: ts, a :: as => by
    constructor
    · by_cases hj : t.resjunk
      · rw [show fixup_tlist_go (t :: ts) (a :: as) =
            (match fixup_tlist_go ts (a :: as) with
             | .error e => .error e
             | .ok ts' => .ok (t :: ts')) by
          simp [fixup_tlist_go, hj]]
        rw [List.countP_cons_of_neg _ _ (by simp [hj])]
        rw [← (fixup_tlist_go_spec ts (a :: as)).1]
        cases fixup_tlist_go ts (a :: as) <;> rename_i x <;>
          simp <;> rintro rfl <;> simp
      · rw [show fixup_tlist_go (t :: ts) (a :: as) =
            (match fixup_tlist_go ts as with
             | .error e => .error e
             | .ok ts' => .ok ({ t with resname := some a } :: ts')) by
          simp [fixup_tlist_go, hj]]
        rw [List.countP_cons_of_pos _ _ (by simp [hj])]
        rw [List.length_cons, Nat.add_lt_add_iff_right]
        rw [← (fixup_tlist_go_spec ts as).1]
        cases fixup_tlist_go ts as <;> rename_i x <;>
          simp <;> rintro rfl <;> simp
    · intro hle
      by_cases hj : t.resjunk
      · rw [List.countP_cons_of_neg _ _ (by simp [hj])] at hle
        have := (fixup_tlist_go_spec ts (a :: as)).2 hle
        simp [fixup_tlist_go, hj, this, assign_aliases_spec]
      · rw [List.countP_cons_of_pos _ _ (by simp [hj])] at hle
        have := (fixup_tlist_go_spec ts as).2
          (by simpa using Nat.le_of_succ_le_succ hle)
        simp [fixup_tlist_go, hj, this, assign_aliases_spec]

/-- C9: aliases from the CREATE statement are assigned positionally to the
non-resjunk target-list entries, skipping resjunk entries; supplying more
aliases than non-resjunk entries fails with the too-many-column-names error,
while supplying fewer succeeds and leaves the remaining entries' names
unchanged. -/
theorem userview_alias_assignment (tl : List TargetEntry)
    (aliases : List String) :
    (fixup_userview_query_tlist tl aliases = .error .tooManyColumnNames ↔
      tl.countP (fun t => !t.resjunk) < aliases.length) ∧
    (aliases.length ≤ tl.countP (fun t => !t.resjunk) →
      fixup_userview_query_tlist tl aliases =
        .ok (assign_aliases_spec tl aliases)) := by
  unfold fixup_userview_query_tlist
  cases aliases with
  | nil =>
    constructor
    · simp
    · intro _
      cases tl <;> simp [assign_aliases_spec]
  | cons a as =>
    simp only [List.isEmpty_cons, Bool.false_eq_true, if_false]
    exact fixup_tlist_go_spec tl (a :: as)

/-- A two-entry target list: one projected column and one resjunk entry. -/
def c9tl : List TargetEntry :=
  [makeTargetEntry (Expr.var 1 1 INT8OID (-1) InvalidOid) 1 (some "a") false,
   { makeTargetEntry (Expr.var 1 2 INT8OID (-1) InvalidOid) 2 none true with
     ressortgroupref := 1 }]

/-- Witness for C9: one alias on `c9tl` renames the single non-junk entry
and leaves the junk entry alone; three aliases fail with the error. -/
theorem userview_alias_assignment_witness :
    fixup_userview_query_tlist c9tl ["x"] =
      .ok (assign_aliases_spec c9tl ["x"]) ∧
    fixup_userview_query_tlist c9tl ["x", "y", "z"] =
      .error .tooManyColumnNames := by
  constructor
  · exact (userview_alias_assignment c9tl ["x"]).2 (by decide)
  · exact (userview_alias_assignment c9tl ["x", "y", "z"]).1.mpr (by decide)

/-! ## C4: repair of a stored view definition
(`cagg_rebuild_view_definition`) -/

/-- What `cagg_rebuild_view_definition` does to the stored user view. -/
inductive RepairOutcome where
  | keptFinalized
  | warned
  | stored (viewTl : List TargetEntry)

/-- The `forboth` rename scan of `cagg_rebuild_view_definition` (lines
2968–2989): walk the rebuilt and stored target lists in parallel, stopping
at the first pair of resjunk entries, failing on a resjunk mismatch, and
renaming entries to the view relation's attribute names otherwise. Returns
the renamed rebuilt list and the `test_failed` contribution. -/
def rebuild_rename_scan (attnames : List String) :
    List TargetEntry → List TargetEntry → Nat → (List TargetEntry × Bool)
  | [], _, _ => ([], false)
  | v :: vs, [], _ => (v :: vs, false)
  | v :: vs, u :: us, i =>
    if v.resjunk ∧ u.resjunk then (v :: vs, false)
    else if v.resjunk ∨ u.resjunk then (v :: vs, true)
    else
      let nm := attnames.getD i ""
      let r := rebuild_rename_scan attnames vs us (i + 1)
      ({ v with resname := some nm } :: r.1, r.2)

/-- The decision logic of `cagg_rebuild_view_definition`: finalized caggs
are left untouched; otherwise a storage-column/relation column-count
mismatch or a resjunk mismatch between the rebuilt and the stored target
list raises a warning and keeps the stored definition; only a clean pass
stores the rebuilt (renamed) view query. `matcollist_len` is
`list_length(mattblinfo.matcollist)` after re-derivation, `relnatts` is
`ts_get_relnatts(mat_ht->main_table_relid)`. -/
def cagg_rebuild_view_definition (finalized : Bool)
    (matcollist_len relnatts : Nat) (viewTl userTl : List TargetEntry)
    (attnames : List String) : RepairOutcome :=
  if finalized then .keptFinalized
  else
    let test1 : Bool := matcollist_len ≠ relnatts
    let r := rebuild_rename_scan attnames viewTl userTl 0
    if test1 || r.2 then .warned else .stored r.1

/-- The claim's notion of a resjunk-status mismatch: scanning both lists in
parallel, some position before the first junk/junk pair has exactly one
resjunk entry. -/
def resjunk_mismatch : List TargetEntry → List TargetEntry → Bool
  | v :: vs, u :: us =>
    if v.resjunk ∧ u.resjunk then false
    else if v.resjunk ∨ u.resjunk then true
    else resjunk_mismatch vs us
  | _, _ => false

/-- The rename scan fails exactly on a resjunk mismatch. -/
theorem rebuild_rename_scan_fail_iff (attnames : List String) :
    ∀ (vs us : List TargetEntry) (i : Nat),
      (rebuild_rename_scan attnames vs us i).2 = resjunk_mismatch vs us
  | [], us, i => by cases us <;> simp [rebuild_rename_scan, resjunk_mismatch]
  | v :: vs, [], i => by simp [rebuild_rename_scan, resjunk_mismatch]
  | v :: vs, u :: us, i => by
    unfold rebuild_rename_scan resjunk_mismatch
    split
    · rfl
    · split
      · rfl
      · exact rebuild_rename_scan_fail_iff attnames vs us (i + 1)

/-- C4: repair of a non-finalized continuous aggregate warns and leaves the
stored definition unchanged exactly when the rebuilt storage-column count
differs from the materialization table's column count or a resjunk mismatch
is detected; it replaces the stored view query exactly when neither
mismatch occurs. -/
theorem rebuild_view_repair_decision (matcollist_len relnatts : Nat)
    (viewTl userTl : List TargetEntry) (attnames : List String) :
    (cagg_rebuild_view_definition false matcollist_len relnatts viewTl
        userTl attnames = .warned ↔
      (matcollist_len ≠ relnatts ∨ resjunk_mismatch viewTl userTl = true)) ∧
    ((∃ tl', cagg_rebuild_view_definition false matcollist_len relnatts
        viewTl userTl attnames = .stored tl') ↔
      (matcollist_len = relnatts ∧
        resjunk_mismatch viewTl userTl = false)) := by
  unfold cagg_rebuild_view_definition
  simp only [Bool.false_eq_true, if_false,
    rebuild_rename_scan_fail_iff attnames viewTl userTl 0]
  by_cases h1 : matcollist_len = relnatts
  · cases h2 : resjunk_mismatch viewTl userTl with
    | true => simp [h1, h2]
    | false => simp [h1, h2]
  · simp [h1]

/-! ## Queries, range tables and the union composer (C2, C3) -/

/-- `CmdType` as far as the embedded code distinguishes it. -/
inductive CmdType where
  | select
  | other
  deriving DecidableEq, Repr

/-- `FromExpr`: the join-tree from-list (as `RangeTblRef` indexes — join
nodes other than plain range-table references do not occur in the queries
these functions receive) and the quals. -/
structure FromExpr where
  fromlist : List Nat
  quals : Option Expr

/-- `SetOperationStmt` whose arms are `RangeTblRef` indexes. -/
structure SetOp where
  isUnion : Bool
  all : Bool
  larg : Nat
  rarg : Nat
  colTypes : List Oid
  colTypmods : List Int
  colCollations : List Oid

mutual

/-- `Query` with the fields the union composer and its inverse read or
write. -/
inductive Query where
  | mk (commandType : CmdType) (rtable : List RTE)
      (jointree : Option FromExpr) (targetList : List TargetEntry)
      (groupClause : List SortGroupClause) (havingQual : Option Expr)
      (sortClause : List SortGroupClause) (setOperations : Option SetOp)
      (hasAggs : Bool) : Query

/-- `RangeTblEntry`: a relation (with its `ts_is_hypertable` catalog answer
attached) or a subquery with its alias and output column names. -/
inductive RTE where
  | rel (relid : Oid) (ishypertable : Bool) : RTE
  | subquery (aliasname : String) (colnames : List String) (q : Query) : RTE

end

def Query.commandType : Query → CmdType
  | .mk c _ _ _ _ _ _ _ _ => c

def Query.rtable : Query → List RTE
  | .mk _ r _ _ _ _ _ _ _ => r

def Query.jointree : Query → Option FromExpr
  | .mk _ _ j _ _ _ _ _ _ => j

def Query.targetList : Query → List TargetEntry
  | .mk _ _ _ t _ _ _ _ _ => t

def Query.groupClause : Query → List SortGroupClause
  | .mk _ _ _ _ g _ _ _ _ => g

def Query.havingQual : Query → Option Expr
  | .mk _ _ _ _ _ h _ _ _ => h

def Query.sortClause : Query → List SortGroupClause
  | .mk _ _ _ _ _ _ s _ _ => s

def Query.setOperations : Query → Option SetOp
  | .mk _ _ _ _ _ _ _ so _ => so

def Query.hasAggs : Query → Bool
  | .mk _ _ _ _ _ _ _ _ a => a

/-- Replace the join tree (`q->jointree = ...`). -/
def Query.withJointree : Query → Option FromExpr → Query
  | .mk c r _ t g h s so a, j => .mk c r j t g h s so a

/-- `query->jointree->quals = NULL` on a query whose join tree exists. -/
def Query.withNullQuals (q : Query) : Query :=
  match q.jointree with
  | none => q
  | some fr => q.withJointree (some ⟨fr.fromlist, none⟩)

/-- `rte->relid`: subquery RTEs carry `InvalidOid`. -/
def RTE.relid : RTE → Oid
  | .rel r _ => r
  | .subquery _ _ _ => InvalidOid

/-- `ts_is_hypertable(rte->relid)` (catalog answer attached to the RTE). -/
def RTE.ishyper : RTE → Bool
  | .rel _ h => h
  | .subquery _ _ _ => false

/-- `make_and_qual(qual1, qual2)` (ts utility): NULL-tolerant conjunction. -/
def make_and_qual (qual1 qual2 : Option Expr) : Option Expr :=
  match qual1, qual2 with
  | none, _ => qual2
  | _, none => qual1
  | some a, some b => some (.boolAndE [a, b])

/-- `get_typlenbyval` length for the column types continuous aggregates
support. -/
def get_typlen (ty : Oid) : Int :=
  if ty = INT2OID then 2
  else if ty = INT4OID ∨ ty = DATEOID then 4
  else if ty = INT8OID ∨ ty = TIMESTAMPOID ∨ ty = TIMESTAMPTZOID then 8
  else -1

/-- `get_typlenbyval` by-value flag for the same types. -/
def get_typbyval (ty : Oid) : Bool :=
  ty = INT2OID ∨ ty = INT4OID ∨ ty = INT8OID ∨ ty = DATEOID ∨
    ty = TIMESTAMPOID ∨ ty = TIMESTAMPTZOID

/-- `ts_time_datum_get_nobegin_or_min(type)`: `-infinity` for the date and
timestamp types, the type's minimum for integer types (kept symbolic). -/
def ts_time_datum_get_nobegin_or_min (ty : Oid) : Val :=
  .nobeginOrMin ty

/-- `cagg_boundary_make_lower_bound(type)`: the `Const` used when no
watermark has been set yet. -/
def cagg_boundary_make_lower_bound (ty : Oid) : Expr :=
  .constE ty (-1) InvalidOid (get_typlen ty)
    (ts_time_datum_get_nobegin_or_min ty) false (get_typbyval ty)

/-- `makeFuncExpr`. -/
def makeFuncExpr (f : FuncId) (rt : Oid) (args : List Expr)
    (funccollid inputcollid : Oid) (cf : CoerceForm) : Expr :=
  .func f rt args funccollid inputcollid cf

/-- `cagg_get_boundary_converter_funcoid(typoid)`. -/
def cagg_get_boundary_converter_funcoid (typoid : Oid) :
    Except CaggErr FuncId :=
  if typoid = DATEOID then .ok (.internalFn INTERNAL_TO_DATE_FUNCTION)
  else if typoid = TIMESTAMPOID then .ok (.internalFn INTERNAL_TO_TS_FUNCTION)
  else if typoid = TIMESTAMPTZOID then
    .ok (.internalFn INTERNAL_TO_TSTZ_FUNCTION)
  else .error .noConverterFunction

/-- `build_conversion_call(type, boundary)`: cast or convert the `int8`
watermark into the partition column's representation. -/
def build_conversion_call (ty : Oid) (boundary : Expr) :
    Except CaggErr Expr :=
  if ty = INT2OID ∨ ty = INT4OID then
    .ok (makeFuncExpr (.castFn INT8OID ty) ty [boundary] InvalidOid
      InvalidOid .implicitCast)
  else if ty = INT8OID then .ok boundary
  else if ty = DATEOID ∨ ty = TIMESTAMPOID ∨ ty = TIMESTAMPTZOID then
    match cagg_get_boundary_converter_funcoid ty with
    | .error e => .error e
    | .ok conv =>
      .ok (makeFuncExpr conv ty [boundary] InvalidOid InvalidOid
        .explicitCall)
  else .error .unsupportedColType

/-- The bare `cagg_watermark(htid)` call of `build_boundary_call`. -/
def cagg_watermark_call (ht_id : Nat) : Expr :=
  makeFuncExpr (.internalFn BOUNDARY_FUNCTION) INT8OID
    [.constE INT4OID (-1) InvalidOid 4 (.int (Int.ofNat ht_id)) false true]
    InvalidOid InvalidOid .explicitCall

/-- `build_boundary_call(ht_id, type)`. -/
def build_boundary_call (ht_id : Nat) (ty : Oid) : Except CaggErr Expr :=
  build_conversion_call ty (cagg_watermark_call ht_id)

/-- `make_opclause(opno, BOOLOID, false, l, r, InvalidOid, InvalidOid)`. -/
def make_opclause (opno : OpNo) (rt : Oid) (l r : Expr) : Expr :=
  .opExpr opno rt [l, r] InvalidOid InvalidOid

/-- `build_union_query_quals(ht_id, partcoltype, opno, varno, attno)`:
`Var op COALESCE(boundary(ht_id), lower_bound)`. -/
def build_union_query_quals (ht_id : Nat) (partcoltype : Oid) (opno : OpNo)
    (varno : Nat) (attno : Int) : Except CaggErr Expr :=
  let v := Expr.var varno attno partcoltype (-1) InvalidOid
  match build_boundary_call ht_id partcoltype with
  | .error e => .error e
  | .ok boundary =>
    .ok (make_opclause opno BOOLOID v
      (.coalesce partcoltype InvalidOid
        [boundary, cagg_boundary_make_lower_bound partcoltype]))

/-- `make_subquery_rte(subquery, aliasname)`: the eref column names are the
non-junk result names. -/
def make_subquery_rte (subquery : Query) (aliasname : String) : RTE :=
  .subquery aliasname
    ((subquery.targetList.filter (fun t => !t.resjunk)).map
      (fun t => t.resname.getD ""))
    subquery

/-- The `varno` used for the live query's watermark qual (create.c lines
3386–3400): in the two-relation join case pick the hypertable's range-table
slot, otherwise the last range-table entry. -/
def union_live_varno (rtable : List RTE) (fromlist : List Nat) : Nat :=
  if rtable.length = CONTINUOUS_AGG_MAX_JOIN_RELATIONS then
    let rtref := fromlist.getD 0 0
    let rte := rtable.getD (rtref - 1) (.rel 0 false)
    let rtref_other := fromlist.getD 1 0
    let rte_other := rtable.getD (rtref_other - 1) (.rel 0 false)
    let normal_table_id := if rte.ishyper then rte_other.relid else rte.relid
    if normal_table_id = rte.relid then 2 else 1
  else rtable.length

/-- The `forboth` loop of `build_union_query` building the union's target
list and the set operation's column type/typmod/collation lists from the
non-junk pairs. -/
def build_union_tlist :
    List (TargetEntry × TargetEntry) → List TargetEntry → List Oid →
    List Int → List Oid →
    (List TargetEntry × List Oid × List Int × List Oid)
  | [], tlist, ct, cm, cc => (tlist, ct, cm, cc)
  | (tle, tle2) :: ps, tlist, ct, cm, cc =>
    if tle.resjunk then build_union_tlist ps tlist ct cm cc
    else
      let e := Expr.var 1 (Int.ofNat tle.resno) (exprType tle.expr)
        (exprTypmod tle.expr) (exprCollation tle.expr)
      let tle_union := { makeTargetEntry e (tlist.length + 1) tle2.resname
          false with
        resorigtbl := 1, resorigcol := Int.ofNat tle.resno,
        ressortgroupref := tle.ressortgroupref }
      build_union_tlist ps (tlist ++ [tle_union])
        (ct ++ [exprType tle.expr]) (cm ++ [exprTypmod tle.expr])
        (cc ++ [exprCollation tle.expr])

/-- `build_union_query(tbinfo, matpartcolno, q1, q2, materialize_htid)`:
combine the materialized query `q1` and the live query `q2` into the
watermark-partitioned UNION ALL. `Assert`s and NULL join trees are modeled
as failures. -/
def build_union_query (tbinfo : CAggTimebucketInfo) (matpartcolno : Int)
    (q1 q2 : Query) (materialize_htid : Nat) : Except CaggErr Query :=
  if q1.targetList.length ≤ q2.targetList.length then
    let sortClause := q1.sortClause
    let tce_lt := OpNo.ltOpr tbinfo.htpartcoltype
    let varno := q1.rtable.length
    match build_union_query_quals materialize_htid tbinfo.htpartcoltype
        tce_lt varno matpartcolno with
    | .error e => .error e
    | .ok quals1 =>
      match q1.jointree with
      | none => .error .assertFailed
      | some fr1 =>
        let q1' := q1.withJointree (some ⟨fr1.fromlist, some quals1⟩)
        match q2.jointree with
        | none => .error .assertFailed
        | some fr2 =>
          let varno2 := union_live_varno q2.rtable fr2.fromlist
          match build_union_query_quals materialize_htid
              tbinfo.htpartcoltype (.negatorOf tce_lt) varno2
              tbinfo.htpartcolno with
          | .error e => .error e
          | .ok q2_quals =>
            let q2' := q2.withJointree
              (some ⟨fr2.fromlist, make_and_qual fr2.quals (some q2_quals)⟩)
            let rte_q1 := make_subquery_rte q1' "*SELECT* 1"
            let rte_q2 := make_subquery_rte q2' "*SELECT* 2"
            let bt := build_union_tlist (q1.targetList.zip q2.targetList)
              [] [] [] []
            .ok (Query.mk .select [rte_q1, rte_q2]
              (if sortClause.isEmpty then none else some ⟨[], none⟩)
              bt.1 [] none sortClause
              (some ⟨true, true, 1, 2, bt.2.1, bt.2.2.1, bt.2.2.2⟩) false)
  else .error .assertFailed

/-- `destroy_union_query(q)`: extract the left arm of the UNION ALL and
delete its WHERE clause; the defensive `Assert`s on the expected shape are
modeled as failures. -/
def destroy_union_query (q : Query) : Except CaggErr Query :=
  match q.commandType, q.setOperations with
  | .select, some so =>
    if so.isUnion && so.all then
      match q.rtable with
      | (RTE.subquery _ _ sub) :: _ =>
        match sub.jointree with
        | some fr => .ok (sub.withJointree (some ⟨fr.fromlist, none⟩))
        | none => .error .assertFailed
      | _ => .error .assertFailed
    else .error .assertFailed
  | _, _ => .error .assertFailed

/-- Inversion of a successful `build_union_query`: recover the two watermark
quals, the two join trees, and the exact shape of the produced query. -/
theorem build_union_query_ok_inv (tbinfo : CAggTimebucketInfo)
    (matpartcolno : Int) (q1 q2 : Query) (materialize_htid : Nat) (u : Query)
    (h : build_union_query tbinfo matpartcolno q1 q2 materialize_htid =
      .ok u) :
    ∃ quals1 q2quals fr1 fr2,
      build_union_query_quals materialize_htid tbinfo.htpartcoltype
        (OpNo.ltOpr tbinfo.htpartcoltype) q1.rtable.length matpartcolno =
        .ok quals1 ∧
      q1.jointree = some fr1 ∧
      q2.jointree = some fr2 ∧
      build_union_query_quals materialize_htid tbinfo.htpartcoltype
        (OpNo.negatorOf (OpNo.ltOpr tbinfo.htpartcoltype))
        (union_live_varno q2.rtable fr2.fromlist) tbinfo.htpartcolno =
        .ok q2quals ∧
      u = Query.mk .select
        [make_subquery_rte
          (q1.withJointree (some ⟨fr1.fromlist, some quals1⟩)) "*SELECT* 1",
         make_subquery_rte
          (q2.withJointree (some ⟨fr2.fromlist,
            make_and_qual fr2.quals (some q2quals)⟩)) "*SELECT* 2"]
        (if q1.sortClause.isEmpty then none else some ⟨[], none⟩)
        (build_union_tlist (q1.targetList.zip q2.targetList) [] [] [] []).1
        [] none q1.sortClause
        (some ⟨true, true, 1, 2,
          (build_union_tlist (q1.targetList.zip q2.targetList)
            [] [] [] []).2.1,
          (build_union_tlist (q1.targetList.zip q2.targetList)
            [] [] [] []).2.2.1,
          (build_union_tlist (q1.targetList.zip q2.targetList)
            [] [] [] []).2.2.2⟩)
        false := by
  unfold build_union_query at h
  split at h
  · dsimp only at h
    cases hq1 : build_union_query_quals materialize_htid
        tbinfo.htpartcoltype (OpNo.ltOpr tbinfo.htpartcoltype)
        q1.rtable.length matpartcolno with
    | error e => rw [hq1] at h; exact absurd h (by simp)
    | ok quals1 =>
      rw [hq1] at h
      cases hj1 : q1.jointree with
      | none => rw [hj1] at h; exact absurd h (by simp)
      | some fr1 =>
        rw [hj1] at h
        cases hj2 : q2.jointree with
        | none => rw [hj2] at h; exact absurd h (by simp)
        | some fr2 =>
          rw [hj2] at h
          dsimp only at h
          cases hq2 : build_union_query_quals materialize_htid
              tbinfo.htpartcoltype
              (OpNo.negatorOf (OpNo.ltOpr tbinfo.htpartcoltype))
              (union_live_varno q2.rtable fr2.fromlist)
              tbinfo.htpartcolno with
          | error e => rw [hq2] at h; exact absurd h (by simp)
          | ok q2quals =>
            rw [hq2] at h
            dsimp only at h
            rw [Except.ok.injEq] at h
            exact ⟨quals1, q2quals, fr1, fr2, rfl, rfl, rfl, hq2, h.symm⟩
  · exact absurd h (by simp)

/-- C2: destroying the union query built from `q1` and `q2` yields `q1`
unchanged except that the watermark predicate injected into its WHERE
clause is removed — the extracted left arm has a null qual. -/
theorem union_query_round_trip (tbinfo : CAggTimebucketInfo)
    (matpartcolno : Int) (q1 q2 : Query) (materialize_htid : Nat) (u : Query)
    (h : build_union_query tbinfo matpartcolno q1 q2 materialize_htid =
      .ok u) :
    destroy_union_query u = .ok q1.withNullQuals := by
  obtain ⟨quals1, q2quals, fr1, fr2, hq1, hj1, hj2, hq2, hu⟩ :=
    build_union_query_ok_inv tbinfo matpartcolno q1 q2 materialize_htid u h
  subst hu
  obtain ⟨c, rt, jt, tl, gc, hv, sc, so, ha⟩ := q1
  rw [show (Query.mk c rt jt tl gc hv sc so ha).jointree = jt from rfl]
    at hj1
  subst hj1
  rfl

/-- Concrete bucket info over a `timestamptz` partitioning column. -/
def c2tb : CAggTimebucketInfo :=
  { htid := 5, parent_mat_hypertable_id := 0, htoid := 100, htpartcolno := 1,
    htpartcoltype := TIMESTAMPTZOID, htpartcol_interval_len := 0,
    bucket_width := 3600000000, bucket_width_type := INTERVALOID,
    interval := some ⟨0, 0, 3600000000⟩, timezone := none,
    bucket_func := none, origin := Val.timeInfinite }

/-- A concrete materialized (finalize) query with an existing WHERE clause. -/
def c2q1 : Query := .mk .select [.rel 999 false]
  (some ⟨[1], some (Expr.constE BOOLOID (-1) InvalidOid 1 (.int 1) false
    true)⟩)
  [makeTargetEntry (Expr.var 1 1 TIMESTAMPTZOID (-1) InvalidOid) 1
    (some "bucket") false]
  [] none [] none false

/-- A concrete live (original) query over the raw hypertable. -/
def c2q2 : Query := .mk .select [.rel 200 true] (some ⟨[1], none⟩)
  [makeTargetEntry (Expr.var 1 1 TIMESTAMPTZOID (-1) InvalidOid) 1
    (some "bucket") false]
  [] none [] none true

/-- Witness for C2 at concrete queries. -/
theorem union_query_round_trip_witness :
    ∃ u, build_union_query c2tb 1 c2q1 c2q2 7 = .ok u ∧
      destroy_union_query u = .ok c2q1.withNullQuals := by
  have hok : exceptIsOk (build_union_query c2tb 1 c2q1 c2q2 7) = true := rfl
  cases hb : build_union_query c2tb 1 c2q1 c2q2 7 with
  | error e => rw [hb] at hok; exact absurd hok (by simp [exceptIsOk])
  | ok u => exact ⟨u, rfl, union_query_round_trip c2tb 1 c2q1 c2q2 7 u hb⟩

/-- A successful `build_union_query_quals` is the comparison of the
partition-column `Var` against the COALESCE of the converted watermark call
and the lower-bound constant. -/
theorem build_union_query_quals_ok (ht_id : Nat) (ty : Oid) (opno : OpNo)
    (varno : Nat) (attno : Int) (e : Expr)
    (h : build_union_query_quals ht_id ty opno varno attno = .ok e) :
    ∃ conv, build_conversion_call ty (cagg_watermark_call ht_id) =
        .ok conv ∧
      e = make_opclause opno BOOLOID (Expr.var varno attno ty (-1)
        InvalidOid)
        (.coalesce ty InvalidOid
          [conv, cagg_boundary_make_lower_bound ty]) := by
  unfold build_union_query_quals at h
  split at h
  · exact absurd h (by simp)
  · rename_i boundary hb
    rw [Except.ok.injEq] at h
    exact ⟨boundary, hb, h.symm⟩

/-- C3: the built real-time view query is a top-level UNION ALL whose left
arm is the materialized query restricted by
`bucket_col < effective_watermark` and whose right arm is the live query
restricted by its original quals ANDed with
`bucket_col >= effective_watermark` (the `>=` operator being the negator of
the type's `<`), where the effective watermark is the COALESCE of the
boundary function applied to the materialization id, converted to the
partition column's type, and the lower-bound constant of that type. -/
theorem realtime_union_query_shape (tbinfo : CAggTimebucketInfo)
    (matpartcolno : Int) (q1 q2 : Query) (materialize_htid : Nat) (u : Query)
    (h : build_union_query tbinfo matpartcolno q1 q2 materialize_htid =
      .ok u) :
    ∃ conv fr1 fr2,
      build_conversion_call tbinfo.htpartcoltype
          (cagg_watermark_call materialize_htid) = .ok conv ∧
      q1.jointree = some fr1 ∧
      q2.jointree = some fr2 ∧
      u.commandType = .select ∧
      u.setOperations = some ⟨true, true, 1, 2,
        (build_union_tlist (q1.targetList.zip q2.targetList)
          [] [] [] []).2.1,
        (build_union_tlist (q1.targetList.zip q2.targetList)
          [] [] [] []).2.2.1,
        (build_union_tlist (q1.targetList.zip q2.targetList)
          [] [] [] []).2.2.2⟩ ∧
      u.targetList = (build_union_tlist (q1.targetList.zip q2.targetList)
        [] [] [] []).1 ∧
      u.rtable = [
        make_subquery_rte (q1.withJointree (some ⟨fr1.fromlist,
          some (make_opclause (OpNo.ltOpr tbinfo.htpartcoltype) BOOLOID
            (Expr.var q1.rtable.length matpartcolno tbinfo.htpartcoltype
              (-1) InvalidOid)
            (.coalesce tbinfo.htpartcoltype InvalidOid
              [conv, cagg_boundary_make_lower_bound
                tbinfo.htpartcoltype]))⟩)) "*SELECT* 1",
        make_subquery_rte (q2.withJointree (some ⟨fr2.fromlist,
          make_and_qual fr2.quals
            (some (make_opclause
              (OpNo.negatorOf (OpNo.ltOpr tbinfo.htpartcoltype)) BOOLOID
              (Expr.var (union_live_varno q2.rtable fr2.fromlist)
                tbinfo.htpartcolno tbinfo.htpartcoltype (-1) InvalidOid)
              (.coalesce tbinfo.htpartcoltype InvalidOid
                [conv, cagg_boundary_make_lower_bound
                  tbinfo.htpartcoltype])))⟩)) "*SELECT* 2"] := by
  obtain ⟨quals1, q2quals, fr1, fr2, hq1, hj1, hj2, hq2, hu⟩ :=
    build_union_query_ok_inv tbinfo matpartcolno q1 q2 materialize_htid u h
  obtain ⟨conv, hconv, he1⟩ := build_union_query_quals_ok _ _ _ _ _ _ hq1
  obtain ⟨conv', hconv', he2⟩ := build_union_query_quals_ok _ _ _ _ _ _ hq2
  rw [hconv, Except.ok.injEq] at hconv'
  subst hconv'
  subst he1
  subst he2
  subst hu
  exact ⟨conv, fr1, fr2, hconv, hj1, hj2, rfl, rfl, rfl, rfl⟩

/-- Witness for C3 at the concrete queries of the C2 witness. -/
theorem realtime_union_query_shape_witness :
    ∃ u, build_union_query c2tb 2 c2q1 c2q2 9 = .ok u ∧
      u.commandType = .select ∧
      (u.setOperations.map (fun so => (so.isUnion, so.all))) =
        some (true, true) := by
  have hok : exceptIsOk (build_union_query c2tb 2 c2q1 c2q2 9) = true := rfl
  cases hb : build_union_query c2tb 2 c2q1 c2q2 9 with
  | error e => rw [hb] at hok; exact absurd hok (by simp [exceptIsOk])
  | ok u =>
    obtain ⟨conv, fr1, fr2, hconv, hfr1, hfr2, hcmd, hso, htl, hrt⟩ :=
      realtime_union_query_shape c2tb 2 c2q1 c2q2 9 u hb
    exact ⟨u, rfl, hcmd, by rw [hso]; rfl⟩

/-! ## C8: time-bucket validation (`caggtimebucket_validate`) -/

/-- Placeholder used with `List.getD` where the C code would read past the
end of an argument list (bucket functions always have at least two
arguments by signature, so this is never reached on real input). -/
def dummyExpr : Expr := .constE InvalidOid 0 InvalidOid 0 .null true true

/-- `eval_const_expressions` is modeled as the identity: the claims checked
here do not depend on constant folding, only on whether an argument is
already a `Const`. -/
def eval_const_expressions (e : Expr) : Expr := e

/-- `check_time_bucket_argument(arg, position)`: strip a `NamedArgExpr`,
constant-fold, and demand a `Const`. -/
def check_time_bucket_argument (arg : Expr) (position : String) :
    Except CaggErr Expr :=
  let arg := match arg with
    | .namedArg a _ => a
    | a => a
  match eval_const_expressions arg with
  | .constE ty tm c l v n b => .ok (.constE ty tm c l v n b)
  | _ => .error (.notConstArg position)

/-- `TextDatumGetCString` on a text `Const`. -/
def const_text_val : Expr → String
  | .constE _ _ _ _ (.text s) _ _ => s
  | _ => ""

/-- `DirectFunctionCall1(date_timestamp, v)`: days since epoch to
microseconds since epoch. -/
def date_timestamp_val : Val → Val
  | .int d => .time (d * 86400000000)
  | v => v

/-- `ts_interval_value_to_internal(value, type)` (ts utility defined outside
create.c): integer widths are returned as-is, interval widths become
microseconds with months counted as `DAYS_PER_MONTH` days. -/
def ts_interval_value_to_internal (v : Val) (ty : Oid) : Int :=
  if ty = INTERVALOID then
    match v with
    | .interval iv =>
      (iv.month * DAYS_PER_MONTH + iv.day) * 86400000000 + iv.time
    | _ => 0
  else
    match v with
    | .int i => i
    | _ => 0

/-- `get_sortgroupclause_tle(sgc, targetList)` (missing entry is an `elog`
at the call site). -/
def get_sortgroupclause_tle (sgc : SortGroupClause)
    (targetList : List TargetEntry) : Option TargetEntry :=
  targetList.find? (fun te => te.ressortgroupref = sgc.tleSortGroupRef)

/-- A group-by entry qualifies as a time-bucket call when it is a function
call whose function is an allowed bucketing function and which is not an
offset variant (five or more arguments, or four with an interval fourth
argument). -/
def qualifying_timebucket (allowed : FuncId → Bool) (e : Expr) : Bool :=
  match e with
  | .func fid _ args _ _ _ =>
    allowed fid &&
      !(decide (5 ≤ args.length) ||
        (decide (args.length = 4) &&
         decide (exprType (args.getD 3 dummyExpr) = INTERVALOID)))
  | _ => false

/-- The timezone handling for the third/fourth argument (create.c lines
808–842). -/
def caggtimebucket_tz_arg (tzValid : String → Bool)
    (tb : CAggTimebucketInfo) (args : List Expr) (idx : Nat)
    (position : String) : Except CaggErr CAggTimebucketInfo :=
  if idx + 1 ≤ args.length then
    match check_time_bucket_argument (args.getD idx dummyExpr) position with
    | .error e => .error e
    | .ok arg =>
      if exprType arg = TEXTOID then
        let tz_name := const_text_val arg
        if ¬tzValid tz_name then .error (.invalidTimezone tz_name)
        else
          .ok { tb with
            timezone := some tz_name,
            bucket_width := BUCKET_WIDTH_VARIABLE }
      else .ok tb
  else .ok tb

/-- The custom-origin extraction (create.c lines 844–881); returns the
updated info and the `custom_origin` flag. The raw argument must be a
`Const` where the C code `castNode`s it. -/
def caggtimebucket_origin (tb : CAggTimebucketInfo) (col_arg : Expr)
    (args : List Expr) : Except CaggErr (CAggTimebucketInfo × Bool) :=
  if exprType col_arg = DATEOID then
    if args.length = 3 then
      match args.getD 2 dummyExpr with
      | .constE _ _ _ _ v _ _ =>
        .ok ({ tb with origin := date_timestamp_val v }, true)
      | _ => .error .assertFailed
    else .ok (tb, false)
  else if exprType col_arg = TIMESTAMPOID then
    if args.length = 3 then
      match args.getD 2 dummyExpr with
      | .constE _ _ _ _ v _ _ => .ok ({ tb with origin := v }, true)
      | _ => .error .assertFailed
    else .ok (tb, false)
  else if exprType col_arg = TIMESTAMPTZOID then
    if 3 ≤ args.length ∧ exprType (args.getD 2 dummyExpr) = TIMESTAMPTZOID
      then
      match args.getD 2 dummyExpr with
      | .constE _ _ _ _ v _ _ => .ok ({ tb with origin := v }, true)
      | _ => .error .assertFailed
    else if 4 ≤ args.length ∧
        exprType (args.getD 3 dummyExpr) = TIMESTAMPTZOID then
      match args.getD 3 dummyExpr with
      | .constE _ _ _ _ v _ _ => .ok ({ tb with origin := v }, true)
      | _ => .error .assertFailed
    else .ok (tb, false)
  else .ok (tb, false)

/-- The width extraction (create.c lines 889–925). -/
def caggtimebucket_width (tb : CAggTimebucketInfo) (args : List Expr) :
    Except CaggErr CAggTimebucketInfo :=
  match eval_const_expressions (args.getD 0 dummyExpr) with
  | .constE wty _ _ _ wv _ _ =>
    let tb := { tb with bucket_width_type := wty }
    let tb := if wty = INTERVALOID then
        let iv := match wv with
          | .interval i => some i
          | _ => none
        let tb := { tb with interval := iv }
        match iv with
        | some i =>
          if i.month ≠ 0 then
            { tb with bucket_width := BUCKET_WIDTH_VARIABLE }
          else tb
        | none => tb
      else tb
    let tb := if tb.bucket_width ≠ BUCKET_WIDTH_VARIABLE then
        { tb with bucket_width := ts_interval_value_to_internal wv wty }
      else tb
    let tb := match tb.interval with
      | some i =>
        if i.month ≠ 0 then { tb with bucket_width := BUCKET_WIDTH_VARIABLE }
        else tb
      | none => tb
    .ok tb
  | _ => .error .widthNotConst

/-- The argument checks of one qualifying bucket call, after `bucket_func`
has been recorded: partition-column check, timezone arguments, custom
origin, width. -/
def caggtimebucket_process_checks (tzValid : String → Bool)
    (tb : CAggTimebucketInfo) (args : List Expr) :
    Except CaggErr CAggTimebucketInfo :=
  let col_arg := args.getD 1 dummyExpr
  let colOk : Bool := match col_arg with
    | .var _ att _ _ _ => att = tb.htpartcolno
    | _ => false
  if ¬colOk then .error .bucketNotPartitionColumn
  else
    match caggtimebucket_tz_arg tzValid tb args 2 "third" with
    | .error e => .error e
    | .ok tb =>
      match caggtimebucket_tz_arg tzValid tb args 3 "fourth" with
      | .error e => .error e
      | .ok tb =>
        match caggtimebucket_origin tb col_arg args with
        | .error e => .error e
        | .ok (tb, custom_origin) =>
          if custom_origin ∧ tb.origin = .timeInfinite then
            .error .invalidOriginInfinity
          else caggtimebucket_width tb args

/-- Per-bucket-call processing of `caggtimebucket_validate`, run on a
qualifying call once the multiple-bucket check has passed. -/
def caggtimebucket_process_qualifying (tzValid : String → Bool)
    (tb : CAggTimebucketInfo) (fe : Expr) (args : List Expr) :
    Except CaggErr CAggTimebucketInfo :=
  caggtimebucket_process_checks tzValid { tb with bucket_func := some fe }
    args

/-- State of the `foreach` loop of `caggtimebucket_validate`. -/
structure TBState where
  tbinfo : CAggTimebucketInfo
  found : Bool

/-- Processing of one group-clause target entry (create.c lines 772–926):
non-qualifying entries are skipped; a second qualifying call raises the
multiple-time-bucket error. -/
def caggtimebucket_process_tle (allowed : FuncId → Bool)
    (tzValid : String → Bool) (st : TBState) (tle : TargetEntry) :
    Except CaggErr TBState :=
  match tle.expr with
  | .func fid rt args c i cf =>
    if ¬allowed fid then .ok st
    else if 5 ≤ args.length ∨
        (args.length = 4 ∧ exprType (args.getD 3 dummyExpr) = INTERVALOID)
      then .ok st
    else if st.found then .error .multipleTimeBucket
    else
      match caggtimebucket_process_qualifying tzValid st.tbinfo
          (.func fid rt args c i cf) args with
      | .error e => .error e
      | .ok tb' => .ok ⟨tb', true⟩
  | _ => .ok st

/-- The `foreach` loop over the group clause. -/
def caggtimebucket_validate_loop (allowed : FuncId → Bool)
    (tzValid : String → Bool) (targetList : List TargetEntry)
    (st : TBState) : List SortGroupClause → Except CaggErr TBState
  | [] => .ok st
  | sgc :: rest =>
    match get_sortgroupclause_tle sgc targetList with
    | none => .error .sortGroupRefNotFound
    | some tle =>
      match caggtimebucket_process_tle allowed tzValid st tle with
      | .error e => .error e
      | .ok st' =>
        caggtimebucket_validate_loop allowed tzValid targetList st' rest

/-- `caggtimebucket_validate(tbinfo, groupClause, targetList)`: the loop
followed by the variable-width interval check and the bucket-found check. -/
def caggtimebucket_validate (allowed : FuncId → Bool)
    (tzValid : String → Bool) (tbinfo : CAggTimebucketInfo)
    (groupClause : List SortGroupClause) (targetList : List TargetEntry) :
    Except CaggErr CAggTimebucketInfo :=
  match caggtimebucket_validate_loop allowed tzValid targetList
      ⟨tbinfo, false⟩ groupClause with
  | .error e => .error e
  | .ok st =>
    if st.tbinfo.bucket_width = BUCKET_WIDTH_VARIABLE then
      match st.tbinfo.interval with
      | some iv =>
        if iv.month ≠ 0 ∧ (iv.day ≠ 0 ∨ iv.time ≠ 0) then
          .error .invalidIntervalMonths
        else if ¬st.found then .error .noTimeBucketFound
        else .ok st.tbinfo
      | none => .error .assertFailed
    else if ¬st.found then .error .noTimeBucketFound
    else .ok st.tbinfo

/-- Number of qualifying time-bucket calls reachable through the group
clause. -/
def count_qualifying (allowed : FuncId → Bool)
    (targetList : List TargetEntry) (groupClause : List SortGroupClause) :
    Nat :=
  groupClause.countP (fun sgc =>
    match get_sortgroupclause_tle sgc targetList with
    | some tle => qualifying_timebucket allowed tle.expr
    | none => false)

/-- `check_time_bucket_argument` never raises the multiple-bucket error. -/
theorem check_tb_arg_ne_multiple (arg : Expr) (position : String) :
    check_time_bucket_argument arg position ≠ .error .multipleTimeBucket := by
  intro h
  simp only [check_time_bucket_argument, eval_const_expressions] at h
  repeat' split at h
  all_goals simp_all

/-- The timezone-argument step never raises the multiple-bucket error. -/
theorem tz_arg_ne_multiple (tzValid : String → Bool)
    (tb : CAggTimebucketInfo) (args : List Expr) (idx : Nat)
    (position : String) :
    caggtimebucket_tz_arg tzValid tb args idx position ≠
      .error .multipleTimeBucket := by
  intro h
  unfold caggtimebucket_tz_arg at h
  split at h
  · cases hc : check_time_bucket_argument (args.getD idx dummyExpr)
        position with
    | error e =>
      simp only [hc] at h
      rw [Except.error.injEq] at h
      subst h
      exact check_tb_arg_ne_multiple _ _ hc
    | ok arg =>
      simp only [hc] at h
      repeat' split at h
      all_goals simp_all
  · simp at h

/-- The origin step never raises the multiple-bucket error. -/
theorem origin_ne_multiple (tb : CAggTimebucketInfo) (col_arg : Expr)
    (args : List Expr) :
    caggtimebucket_origin tb col_arg args ≠ .error .multipleTimeBucket := by
  intro h
  simp only [caggtimebucket_origin] at h
  repeat' split at h
  all_goals simp_all

/-- The width step never raises the multiple-bucket error. -/
theorem width_ne_multiple (tb : CAggTimebucketInfo) (args : List Expr) :
    caggtimebucket_width tb args ≠ .error .multipleTimeBucket := by
  intro h
  simp only [caggtimebucket_width, eval_const_expressions] at h
  repeat' split at h
  all_goals simp_all

/-- The per-call argument checks never raise the multiple-bucket error. -/
theorem process_checks_ne_multiple (tzValid : String → Bool)
    (tb : CAggTimebucketInfo) (args : List Expr) :
    caggtimebucket_process_checks tzValid tb args ≠
      .error .multipleTimeBucket := by
  intro h
  unfold caggtimebucket_process_checks at h
  dsimp only at h
  split at h
  · simp at h
  · cases h2 : caggtimebucket_tz_arg tzValid tb args 2 "third" with
    | error e =>
      simp only [h2] at h
      rw [Except.error.injEq] at h
      subst h
      exact tz_arg_ne_multiple _ _ _ _ _ h2
    | ok tb2 =>
      simp only [h2] at h
      cases h3 : caggtimebucket_tz_arg tzValid tb2 args 3 "fourth" with
      | error e =>
        simp only [h3] at h
        rw [Except.error.injEq] at h
        subst h
        exact tz_arg_ne_multiple _ _ _ _ _ h3
      | ok tb3 =>
        simp only [h3] at h
        cases h4 : caggtimebucket_origin tb3 (args.getD 1 dummyExpr)
            args with
        | error e =>
          simp only [h4] at h
          rw [Except.error.injEq] at h
          subst h
          exact origin_ne_multiple _ _ _ h4
        | ok p =>
          obtain ⟨tb4, co⟩ := p
          simp only [h4] at h
          split at h
          · simp at h
          · exact width_ne_multiple _ _ h

/-- Per-call processing never raises the multiple-bucket error. -/
theorem process_qualifying_ne_multiple (tzValid : String → Bool)
    (tb : CAggTimebucketInfo) (fe : Expr) (args : List Expr) :
    caggtimebucket_process_qualifying tzValid tb fe args ≠
      .error .multipleTimeBucket := by
  unfold caggtimebucket_process_qualifying
  exact process_checks_ne_multiple _ _ _

/-- A non-qualifying group-by entry is skipped without touching the state. -/
theorem process_tle_nonqualifying (allowed : FuncId → Bool)
    (tzValid : String → Bool) (st : TBState) (tle : TargetEntry)
    (h : qualifying_timebucket allowed tle.expr = false) :
    caggtimebucket_process_tle allowed tzValid st tle = .ok st := by
  have h' := h
  unfold qualifying_timebucket at h'
  unfold caggtimebucket_process_tle
  cases htle : tle.expr
  case func fid rt args c i cf =>
    rw [htle] at h'
    dsimp only
    simp only [Bool.and_eq_false_iff, Bool.not_eq_false', Bool.or_eq_true,
      Bool.and_eq_true, decide_eq_true_eq] at h'
    rcases h' with h' | h'
    · rw [if_pos (by simp [h'])]
    · by_cases hA : (¬allowed fid = true)
      · rw [if_pos hA]
      · rw [if_neg hA, if_pos h']
  all_goals rfl

/-- A second qualifying call fails with the multiple-bucket error. -/
theorem process_tle_second_qualifying (allowed : FuncId → Bool)
    (tzValid : String → Bool) (tb : CAggTimebucketInfo) (tle : TargetEntry)
    (h : qualifying_timebucket allowed tle.expr = true) :
    caggtimebucket_process_tle allowed tzValid ⟨tb, true⟩ tle =
      .error .multipleTimeBucket := by
  have h' := h
  unfold qualifying_timebucket at h'
  unfold caggtimebucket_process_tle
  cases htle : tle.expr
  case func fid rt args c i cf =>
    rw [htle] at h'
    dsimp only
    simp only [Bool.and_eq_true, Bool.not_eq_true', decide_eq_true_eq]
      at h'
    have hC : ¬(5 ≤ args.length ∨ (args.length = 4 ∧
        exprType (args.getD 3 dummyExpr) = INTERVALOID)) := by
      have h2 := h'.2
      simp only [Bool.or_eq_false_iff, Bool.and_eq_false_iff,
        decide_eq_false_iff_not] at h2
      rcases h2 with ⟨hne5, h4⟩
      rintro (hh | ⟨h4', hT⟩)
      · exact hne5 hh
      · rcases h4 with h4 | h4
        · exact h4 h4'
        · exact h4 hT
    rw [if_neg (by simp [h'.1]), if_neg hC]
    rfl
  all_goals (rw [htle] at h'; simp at h')

/-- Processing the first qualifying call succeeds only with `found` set. -/
theorem process_tle_first_qualifying (allowed : FuncId → Bool)
    (tzValid : String → Bool) (tb : CAggTimebucketInfo) (tle : TargetEntry)
    (h : qualifying_timebucket allowed tle.expr = true)
    (st' : TBState)
    (hok : caggtimebucket_process_tle allowed tzValid ⟨tb, false⟩ tle =
      .ok st') :
    st'.found = true := by
  have h' := h
  unfold qualifying_timebucket at h'
  unfold caggtimebucket_process_tle at hok
  cases htle : tle.expr
  case func fid rt args c i cf =>
    rw [htle] at h' hok
    dsimp only at hok
    simp only [Bool.and_eq_true, Bool.not_eq_true', decide_eq_true_eq]
      at h'
    have hC : ¬(5 ≤ args.length ∨ (args.length = 4 ∧
        exprType (args.getD 3 dummyExpr) = INTERVALOID)) := by
      have h2 := h'.2
      simp only [Bool.or_eq_false_iff, Bool.and_eq_false_iff,
        decide_eq_false_iff_not] at h2
      rcases h2 with ⟨hne5, h4⟩
      rintro (hh | ⟨h4', hT⟩)
      · exact hne5 hh
      · rcases h4 with h4 | h4
        · exact h4 h4'
        · exact h4 hT
    rw [if_neg (by simp [h'.1]), if_neg hC, if_neg (by simp)] at hok
    split at hok
    · simp at hok
    · rw [Except.ok.injEq] at hok
      rw [← hok]
  all_goals (rw [htle] at h'; simp at h')

/-- Processing any entry from a not-yet-found state never raises the
multiple-bucket error. -/
theorem process_tle_notfound_ne_multiple (allowed : FuncId → Bool)
    (tzValid : String → Bool) (tb : CAggTimebucketInfo) (tle : TargetEntry) :
    caggtimebucket_process_tle allowed tzValid ⟨tb, false⟩ tle ≠
      .error .multipleTimeBucket := by
  intro h
  unfold caggtimebucket_process_tle at h
  cases htle : tle.expr
  case func fid rt args c i cf =>
    rw [htle] at h
    dsimp only at h
    split at h
    · simp at h
    · split at h
      · simp at h
      · rw [if_neg (by simp)] at h
        split at h
        · rename_i e hq
          rw [Except.error.injEq] at h
          subst h
          exact process_qualifying_ne_multiple _ _ _ _ hq
        · simp at h
  all_goals (rw [htle] at h; simp at h)

/-- The first group-clause entry (in clause order) whose resolved target
entry is a qualifying time-bucket call. -/
def first_qualifying_tle (allowed : FuncId → Bool)
    (targetList : List TargetEntry) :
    List SortGroupClause → Option TargetEntry
  | [] => none
  | sgc :: rest =>
    match get_sortgroupclause_tle sgc targetList with
    | none => none
    | some tle =>
      if qualifying_timebucket allowed tle.expr then some tle
      else first_qualifying_tle allowed targetList rest

/-- Unfolding of `count_qualifying` over a cons cell. -/
theorem count_qualifying_cons (allowed : FuncId → Bool)
    (targetList : List TargetEntry) (sgc : SortGroupClause)
    (rest : List SortGroupClause) :
    count_qualifying allowed targetList (sgc :: rest) =
      count_qualifying allowed targetList rest +
        (match get_sortgroupclause_tle sgc targetList with
          | some tle =>
            if qualifying_timebucket allowed tle.expr then 1 else 0
          | none => 0) := by
  unfold count_qualifying
  rw [List.countP_cons]
  cases get_sortgroupclause_tle sgc targetList <;> simp

/-- Once `found` is set, any further qualifying call makes the loop fail
with the multiple-bucket error. -/
theorem loop_found_qualifying_multiple (allowed : FuncId → Bool)
    (tzValid : String → Bool) (targetList : List TargetEntry)
    (tb : CAggTimebucketInfo) (gc : List SortGroupClause)
    (hres : ∀ sgc ∈ gc, (get_sortgroupclause_tle sgc targetList).isSome =
      true)
    (h1 : 1 ≤ count_qualifying allowed targetList gc) :
    caggtimebucket_validate_loop allowed tzValid targetList ⟨tb, true⟩ gc =
      .error .multipleTimeBucket := by
  revert hres h1
  induction gc with
  | nil =>
    intro hres h1
    simp [count_qualifying] at h1
  | cons sgc rest ih =>
    intro hres h1
    obtain ⟨tle, htle⟩ := Option.isSome_iff_exists.mp
      (hres sgc (List.mem_cons_self _ _))
    unfold caggtimebucket_validate_loop
    simp only [htle]
    by_cases hq : qualifying_timebucket allowed tle.expr = true
    · simp only [process_tle_second_qualifying allowed tzValid tb tle hq]
    · have hq' : qualifying_timebucket allowed tle.expr = false := by
        simpa using hq
      simp only [process_tle_nonqualifying allowed tzValid ⟨tb, true⟩ tle
        hq']
      apply ih
      · intro s hs
        exact hres s (List.mem_cons_of_mem _ hs)
      · have hcq : count_qualifying allowed targetList (sgc :: rest) =
            count_qualifying allowed targetList rest := by
          simp [count_qualifying_cons, htle, hq']
        rw [hcq] at h1
        exact h1

/-- A state with no qualifying call remaining never produces the
multiple-bucket error. -/
theorem loop_no_qualifying_ne_multiple (allowed : FuncId → Bool)
    (tzValid : String → Bool) (targetList : List TargetEntry)
    (st : TBState) (gc : List SortGroupClause)
    (h0 : count_qualifying allowed targetList gc = 0) :
    caggtimebucket_validate_loop allowed tzValid targetList st gc ≠
      .error .multipleTimeBucket := by
  revert h0
  induction gc generalizing st with
  | nil =>
    intro h0 h
    simp [caggtimebucket_validate_loop] at h
  | cons sgc rest ih =>
    intro h0 h
    unfold caggtimebucket_validate_loop at h
    cases htle : get_sortgroupclause_tle sgc targetList with
    | none =>
      simp only [htle] at h
      simp at h
    | some tle =>
      simp only [htle] at h
      have hq' : qualifying_timebucket allowed tle.expr = false := by
        by_cases hq : qualifying_timebucket allowed tle.expr = true
        · exfalso
          have hcq : count_qualifying allowed targetList (sgc :: rest) =
              count_qualifying allowed targetList rest + 1 := by
            simp [count_qualifying_cons, htle, hq]
          rw [hcq] at h0
          omega
        · simpa using hq
      simp only [process_tle_nonqualifying allowed tzValid st tle hq'] at h
      have h0' : count_qualifying allowed targetList rest = 0 := by
        have hcq : count_qualifying allowed targetList (sgc :: rest) =
            count_qualifying allowed targetList rest := by
          simp [count_qualifying_cons, htle, hq']
        rw [hcq] at h0
        exact h0
      exact ih st h0' h

/-- With at most one qualifying call and `found` still unset, the loop
never produces the multiple-bucket error. -/
theorem loop_notfound_le_one_ne_multiple (allowed : FuncId → Bool)
    (tzValid : String → Bool) (targetList : List TargetEntry)
    (tb : CAggTimebucketInfo) (gc : List SortGroupClause)
    (h1 : count_qualifying allowed targetList gc ≤ 1) :
    caggtimebucket_validate_loop allowed tzValid targetList ⟨tb, false⟩ gc ≠
      .error .multipleTimeBucket := by
  revert h1
  induction gc generalizing tb with
  | nil =>
    intro h1 h
    simp [caggtimebucket_validate_loop] at h
  | cons sgc rest ih =>
    intro h1 h
    unfold caggtimebucket_validate_loop at h
    cases htle : get_sortgroupclause_tle sgc targetList with
    | none =>
      simp only [htle] at h
      simp at h
    | some tle =>
      simp only [htle] at h
      by_cases hq : qualifying_timebucket allowed tle.expr = true
      · cases hp : caggtimebucket_process_tle allowed tzValid ⟨tb, false⟩
            tle with
        | error e =>
          simp only [hp] at h
          rw [Except.error.injEq] at h
          subst h
          exact process_tle_notfound_ne_multiple allowed tzValid tb tle hp
        | ok st' =>
          simp only [hp] at h
          have h0' : count_qualifying allowed targetList rest = 0 := by
            have hcq : count_qualifying allowed targetList (sgc :: rest) =
                count_qualifying allowed targetList rest + 1 := by
              simp [count_qualifying_cons, htle, hq]
            rw [hcq] at h1
            omega
          exact loop_no_qualifying_ne_multiple allowed tzValid targetList
            st' rest h0' h
      · have hq' : qualifying_timebucket allowed tle.expr = false := by
          simpa using hq
        simp only [process_tle_nonqualifying allowed tzValid ⟨tb, false⟩
          tle hq'] at h
        have h1' : count_qualifying allowed targetList rest ≤ 1 := by
          have hcq : count_qualifying allowed targetList (sgc :: rest) =
              count_qualifying allowed targetList rest := by
            simp [count_qualifying_cons, htle, hq']
          rw [hcq] at h1
          exact h1
        exact ih tb h1' h

/-- With two or more qualifying calls, all group refs resolvable, and the
first qualifying call passing its argument checks, the loop fails with the
multiple-bucket error. -/
theorem loop_two_qualifying_multiple (allowed : FuncId → Bool)
    (tzValid : String → Bool) (targetList : List TargetEntry)
    (tb : CAggTimebucketInfo) (gc : List SortGroupClause)
    (hres : ∀ sgc ∈ gc, (get_sortgroupclause_tle sgc targetList).isSome =
      true)
    (h2 : 2 ≤ count_qualifying allowed targetList gc)
    (hfirst : ∀ tle, first_qualifying_tle allowed targetList gc = some tle →
      ∃ st', caggtimebucket_process_tle allowed tzValid ⟨tb, false⟩ tle =
        .ok st') :
    caggtimebucket_validate_loop allowed tzValid targetList ⟨tb, false⟩ gc =
      .error .multipleTimeBucket := by
  revert hres h2 hfirst
  induction gc with
  | nil =>
    intro hres h2 hfirst
    simp [count_qualifying] at h2
  | cons sgc rest ih =>
    intro hres h2 hfirst
    obtain ⟨tle, htle⟩ := Option.isSome_iff_exists.mp
      (hres sgc (List.mem_cons_self _ _))
    by_cases hq : qualifying_timebucket allowed tle.expr = true
    · have hfq : first_qualifying_tle allowed targetList (sgc :: rest) =
          some tle := by
        unfold first_qualifying_tle
        simp only [htle]
        rw [if_pos hq]
      obtain ⟨st', hst'⟩ := hfirst tle hfq
      have hfound := process_tle_first_qualifying allowed tzValid tb tle hq
        st' hst'
      unfold caggtimebucket_validate_loop
      simp only [htle, hst']
      obtain ⟨tb2, f⟩ := st'
      dsimp only at hfound
      subst hfound
      apply loop_found_qualifying_multiple
      · intro s hs
        exact hres s (List.mem_cons_of_mem _ hs)
      · have hcq : count_qualifying allowed targetList (sgc :: rest) =
            count_qualifying allowed targetList rest + 1 := by
          simp [count_qualifying_cons, htle, hq]
        rw [hcq] at h2
        omega
    · have hq' : qualifying_timebucket allowed tle.expr = false := by
        simpa using hq
      unfold caggtimebucket_validate_loop
      simp only [htle]
      simp only [process_tle_nonqualifying allowed tzValid ⟨tb, false⟩ tle
        hq']
      apply ih
      · intro s hs
        exact hres s (List.mem_cons_of_mem _ hs)
      · have hcq : count_qualifying allowed targetList (sgc :: rest) =
            count_qualifying allowed targetList rest := by
          simp [count_qualifying_cons, htle, hq']
        rw [hcq] at h2
        exact h2
      · intro tle' h'
        apply hfirst tle'
        unfold first_qualifying_tle
        simp only [htle]
        rw [if_neg (by simp [hq'])]
        exact h'

/-- C8: with two or more qualifying time-bucket calls reachable through
the GROUP BY clause (all sortgroup refs resolvable, the first qualifying
call passing its own argument checks), `caggtimebucket_validate` fails
with the multiple-time-bucket error; with at most one qualifying call it
never reports that error. -/
theorem multiple_time_bucket_validation (allowed : FuncId → Bool)
    (tzValid : String → Bool) (tbinfo : CAggTimebucketInfo)
    (gc : List SortGroupClause) (tl : List TargetEntry) :
    (2 ≤ count_qualifying allowed tl gc →
      (∀ sgc ∈ gc, (get_sortgroupclause_tle sgc tl).isSome = true) →
      (∀ tle, first_qualifying_tle allowed tl gc = some tle →
        ∃ st', caggtimebucket_process_tle allowed tzValid ⟨tbinfo, false⟩
          tle = .ok st') →
      caggtimebucket_validate allowed tzValid tbinfo gc tl =
        .error .multipleTimeBucket) ∧
    (count_qualifying allowed tl gc ≤ 1 →
      caggtimebucket_validate allowed tzValid tbinfo gc tl ≠
        .error .multipleTimeBucket) := by
  constructor
  · intro h2 hres hfirst
    have hl := loop_two_qualifying_multiple allowed tzValid tl tbinfo gc
      hres h2 hfirst
    unfold caggtimebucket_validate
    simp only [hl]
  · intro hle h
    unfold caggtimebucket_validate at h
    cases hl : caggtimebucket_validate_loop allowed tzValid tl
        ⟨tbinfo, false⟩ gc with
    | error e =>
      simp only [hl] at h
      rw [Except.error.injEq] at h
      subst h
      exact loop_notfound_le_one_ne_multiple allowed tzValid tl tbinfo gc
        hle hl
    | ok st =>
      simp only [hl] at h
      repeat' split at h
      all_goals simp_all

/-- Concrete data for the C8 witness: bucketing function oid 931 is the
only allowed one, all timezones valid. -/
def c8allowed : FuncId → Bool := fun f =>
  match f with
  | .oid n => n == 931
  | _ => false

def c8tz : String → Bool := fun _ => true

def c8tbinit : CAggTimebucketInfo where
  htid := 1
  parent_mat_hypertable_id := 0
  htoid := 100
  htpartcolno := 1
  htpartcoltype := INT8OID
  htpartcol_interval_len := 1000
  bucket_width := 0
  bucket_width_type := 0
  interval := none
  timezone := none
  bucket_func := none
  origin := .null

/-- `time_bucket(3600000000, ts)` over an int8 partition column. -/
def c8bucketCall : Expr :=
  .func (.oid 931) INT8OID
    [.constE INT8OID (-1) 0 8 (.int 3600000000) false true,
     .var 1 1 INT8OID (-1) 0]
    0 0 .explicitCall

def c8te1 : TargetEntry := ⟨c8bucketCall, 1, none, 1, 0, 0, false⟩

def c8te2 : TargetEntry := ⟨c8bucketCall, 2, none, 2, 0, 0, false⟩

def c8tl : List TargetEntry := [c8te1, c8te2]

def c8gc2 : List SortGroupClause :=
  [⟨1, .oid 10, .oid 11, false, true⟩, ⟨2, .oid 10, .oid 11, false, true⟩]

def c8gc1 : List SortGroupClause := [⟨1, .oid 10, .oid 11, false, true⟩]

/-- Witness for C8: two `time_bucket` group-by entries are rejected with
the multiple-bucket error, a single one is not. -/
theorem multiple_time_bucket_validation_witness :
    caggtimebucket_validate c8allowed c8tz c8tbinit c8gc2 c8tl =
        .error .multipleTimeBucket ∧
      caggtimebucket_validate c8allowed c8tz c8tbinit c8gc1 c8tl ≠
        .error .multipleTimeBucket :=
  ⟨(multiple_time_bucket_validation c8allowed c8tz c8tbinit c8gc2 c8tl).1
      (by decide) (by decide)
      (by
        intro tle htle
        have he : first_qualifying_tle c8allowed c8tl c8gc2 = some c8te1 :=
          rfl
        rw [he] at htle
        have h1 : c8te1 = tle := Option.some.inj htle
        subst h1
        exact ⟨_, rfl⟩),
   (multiple_time_bucket_validation c8allowed c8tz c8tbinit c8gc1 c8tl).2
      (by decide)⟩

end Cagg
